import Mathlib

/-!
# Verification of the carcassonne-server room coordinator and client session

Shallow embedding of the repository's Rust sources:
* `src/protocol.rs`   — wire types, `SerId` base64 serialization;
* `src/server_actor.rs` — the coordinator (`ServerActor`) and its request handlers;
* `src/client_ws.rs`  — the per-client session state machine (`ClientWs`).

Conventions of the embedding:
* `IdType = usize` is modelled as `Nat`; the target is 64-bit, so the byte
  width of `IdType` is 8.
* Rust `HashMap<IdType, V>` registries are modelled as association lists
  (`List (IdType × V)`) and `HashSet<IdType>` as `List IdType`; the list order
  models one concrete (unspecified) hash iteration order, insertion appends.
* Rust strings are modelled as `List Char` (all strings involved are ASCII,
  so byte indexing and char indexing coincide).
* `panic!`/`expect`/`unwrap` paths make a handler return `none`
  (`Option`-valued handlers); `u32` decrements are modelled with truncating
  `Nat` subtraction.
* `rng.gen` rejection-sampling loops are modelled by passing the freshly
  sampled id as an explicit argument; theorems that need the loop's
  postcondition state it as a freshness hypothesis.
* Actor messages delivered with `addr.do_send` are returned as an explicit
  list of `(recipient, payload)` pairs; `ctx.notify` self-notifications are
  returned as pending requests.
-/

namespace Carc

/-- `pub type IdType = usize;` on a 64-bit target. -/
abbrev IdType := Nat

/-! ## Base64 (the `base64` crate's standard alphabet, canonical padding)

`SerId` is serialized as `base64::encode(id.to_be_bytes())` and deserialized
with `base64::decode` followed by a length check (`protocol.rs`). -/

/-- The standard base64 alphabet. -/
def b64Alphabet : List Char :=
  "ABCDEFGHIJKLMNOPQRSTUVWXYZabcdefghijklmnopqrstuvwxyz0123456789+/".toList

/-- Character for a 6-bit group. -/
def b64Char (n : Nat) : Char := b64Alphabet.getD n 'A'

/-- Index of a character in the alphabet (`none` for `'='` and foreign chars). -/
def b64Index (c : Char) : Option Nat := b64Alphabet.findIdx? (· == c)

/-- Encode a byte list into base64 with canonical `'='` padding,
processing 3-byte chunks. -/
def b64EncodeChunks : List Nat → List Char
  | [] => []
  | [b0] => [b64Char (b0 / 4), b64Char (b0 % 4 * 16), '=', '=']
  | [b0, b1] => [b64Char (b0 / 4), b64Char (b0 % 4 * 16 + b1 / 16), b64Char (b1 % 16 * 4), '=']
  | b0 :: b1 :: b2 :: rest =>
      b64Char (b0 / 4) :: b64Char (b0 % 4 * 16 + b1 / 16) ::
        b64Char (b1 % 16 * 4 + b2 / 64) :: b64Char (b2 % 64) :: b64EncodeChunks rest

/-- Decode the final 4-character group of a base64 string, handling the
padded forms and rejecting non-zero trailing bits (the crate's default). -/
def b64DecodeLast (c0 c1 c2 c3 : Char) : Option (List Nat) :=
  if c3 = '=' then
    if c2 = '=' then do
      let n0 ← b64Index c0
      let n1 ← b64Index c1
      if n1 % 16 = 0 then pure [n0 * 4 + n1 / 16] else none
    else do
      let n0 ← b64Index c0
      let n1 ← b64Index c1
      let n2 ← b64Index c2
      if n2 % 4 = 0 then pure [n0 * 4 + n1 / 16, n1 % 16 * 16 + n2 / 4] else none
  else do
    let n0 ← b64Index c0
    let n1 ← b64Index c1
    let n2 ← b64Index c2
    let n3 ← b64Index c3
    pure [n0 * 4 + n1 / 16, n1 % 16 * 16 + n2 / 4, n2 % 4 * 64 + n3]

/-- Decode a base64 string (4-character groups, padding only in the final
group); `none` models a `DecodeError`. -/
def b64DecodeChunks : List Char → Option (List Nat)
  | [] => some []
  | c0 :: c1 :: c2 :: c3 :: rest =>
      if rest.isEmpty then b64DecodeLast c0 c1 c2 c3
      else do
        let n0 ← b64Index c0
        let n1 ← b64Index c1
        let n2 ← b64Index c2
        let n3 ← b64Index c3
        let tl ← b64DecodeChunks rest
        pure ((n0 * 4 + n1 / 16) :: (n1 % 16 * 16 + n2 / 4) :: ((n2 % 4 * 64 + n3) :: tl))
  | _ => none

/-- `x.to_be_bytes()` for a `width`-byte unsigned integer: big-endian bytes. -/
def toBeBytes : Nat → Nat → List Nat
  | 0, _ => []
  | w + 1, x => toBeBytes w (x / 256) ++ [x % 256]

/-- `IdType::from_be_bytes`. -/
def fromBeBytes (l : List Nat) : Nat := l.foldl (fun a b => a * 256 + b) 0

/-- `impl Serialize for SerId` / `impl Display for SerId` (`protocol.rs`):
base64 of the big-endian bytes of the full 8-byte word. -/
def serIdSerialize (x : Nat) : List Char := b64EncodeChunks (toBeBytes 8 x)

/-- `SerIdVisitor::visit_str` (`protocol.rs`): base64-decode, reject wrong
decoded length, then `from_be_bytes`. -/
def serIdVisitStr (v : List Char) : Except String Nat :=
  (b64DecodeChunks v).elim (.error "Invalid ID")
    (fun data =>
      if data.length ≠ 8 then .error "Invalid ID length"
      else .ok (fromBeBytes data))

/-! ### Base64 / SerId lemmas -/

theorem b64Alphabet_length : b64Alphabet.length = 64 := by decide

theorem b64Char_ne_pad (n : Nat) : b64Char n ≠ '=' := by
  by_cases h : n < 64
  · exact (by decide : ∀ m, m < 64 → b64Char m ≠ '=') n h
  · have hlen : b64Alphabet.length ≤ n := by rw [b64Alphabet_length]; omega
    unfold b64Char
    rw [List.getD_eq_default _ _ hlen]
    decide

theorem b64Index_b64Char {n : Nat} (h : n < 64) : b64Index (b64Char n) = some n :=
  (by decide : ∀ m, m < 64 → b64Index (b64Char m) = some m) n h

theorem b64EncodeChunks_ne_nil {bs : List Nat} (h : bs ≠ []) : b64EncodeChunks bs ≠ [] := by
  match bs with
  | [] => exact absurd rfl h
  | [b0] => simp [b64EncodeChunks]
  | [b0, b1] => simp [b64EncodeChunks]
  | b0 :: b1 :: b2 :: rest => simp [b64EncodeChunks]

theorem b64_roundtrip (bs : List Nat) (h : ∀ b ∈ bs, b < 256) :
    b64DecodeChunks (b64EncodeChunks bs) = some bs := by
  induction bs using b64EncodeChunks.induct with
  | case1 => rfl
  | case2 b0 =>
      have hb0 : b0 < 256 := h b0 (by simp)
      have h0 : b0 / 4 < 64 := by omega
      have h1 : b0 % 4 * 16 < 64 := by omega
      simp only [b64EncodeChunks, b64DecodeChunks, List.isEmpty_nil, if_true]
      simp only [b64DecodeLast, if_pos rfl]
      rw [b64Index_b64Char h0, b64Index_b64Char h1]
      have hm : b0 % 4 * 16 % 16 = 0 := by omega
      have e0 : b0 / 4 * 4 + b0 % 4 * 16 / 16 = b0 := by omega
      simp only [Option.bind_eq_bind, Option.some_bind, hm, if_pos rfl]
      rw [e0]
      simp
  | case3 b0 b1 =>
      have hb0 : b0 < 256 := h b0 (by simp)
      have hb1 : b1 < 256 := h b1 (by simp)
      have h0 : b0 / 4 < 64 := by omega
      have h1 : b0 % 4 * 16 + b1 / 16 < 64 := by omega
      have h2 : b1 % 16 * 4 < 64 := by omega
      simp only [b64EncodeChunks, b64DecodeChunks, List.isEmpty_nil, if_true]
      simp only [b64DecodeLast, if_pos rfl, if_neg (b64Char_ne_pad (b1 % 16 * 4))]
      rw [b64Index_b64Char h0, b64Index_b64Char h1, b64Index_b64Char h2]
      have hm : b1 % 16 * 4 % 4 = 0 := by omega
      have e0 : b0 / 4 * 4 + (b0 % 4 * 16 + b1 / 16) / 16 = b0 := by omega
      have e1 : (b0 % 4 * 16 + b1 / 16) % 16 * 16 + b1 % 16 * 4 / 4 = b1 := by omega
      simp only [Option.bind_eq_bind, Option.some_bind, hm, if_pos rfl]
      rw [e0, e1]
      simp
  | case4 b0 b1 b2 rest ih =>
      have hb0 : b0 < 256 := h b0 (by simp)
      have hb1 : b1 < 256 := h b1 (by simp)
      have hb2 : b2 < 256 := h b2 (by simp)
      have h0 : b0 / 4 < 64 := by omega
      have h1 : b0 % 4 * 16 + b1 / 16 < 64 := by omega
      have h2 : b1 % 16 * 4 + b2 / 64 < 64 := by omega
      have h3 : b2 % 64 < 64 := by omega
      have ih' := ih (fun b hb => h b (by simp [hb]))
      have e0 : (b0 / 4) * 4 + (b0 % 4 * 16 + b1 / 16) / 16 = b0 := by omega
      have e1 : (b0 % 4 * 16 + b1 / 16) % 16 * 16 + (b1 % 16 * 4 + b2 / 64) / 4 = b1 := by omega
      have e2 : (b1 % 16 * 4 + b2 / 64) % 4 * 64 + b2 % 64 = b2 := by omega
      match rest, ih', h with
      | [], _, _ =>
          simp only [b64EncodeChunks, b64DecodeChunks, List.isEmpty_nil, if_true]
          simp only [b64DecodeLast, if_neg (b64Char_ne_pad (b2 % 64))]
          rw [b64Index_b64Char h0, b64Index_b64Char h1, b64Index_b64Char h2,
            b64Index_b64Char h3]
          simp only [Option.bind_eq_bind, Option.some_bind]
          rw [e0, e1, e2]
          simp
      | r0 :: rtl, ih', _ =>
          have hne : b64EncodeChunks (r0 :: rtl) ≠ [] := b64EncodeChunks_ne_nil (by simp)
          simp only [b64EncodeChunks, b64DecodeChunks]
          rw [if_neg (by simpa [List.isEmpty_iff] using hne)]
          rw [b64Index_b64Char h0, b64Index_b64Char h1, b64Index_b64Char h2,
            b64Index_b64Char h3, ih']
          simp only [Option.bind_eq_bind, Option.some_bind]
          rw [e0, e1, e2]
          simp

theorem toBeBytes_length (w x : Nat) : (toBeBytes w x).length = w := by
  induction w generalizing x with
  | zero => rfl
  | succ w ih => simp [toBeBytes, ih]

theorem toBeBytes_lt (w x : Nat) : ∀ b ∈ toBeBytes w x, b < 256 := by
  induction w generalizing x with
  | zero => simp [toBeBytes]
  | succ w ih =>
      intro b hb
      simp only [toBeBytes, List.mem_append, List.mem_singleton] at hb
      rcases hb with hb | hb
      · exact ih (x / 256) b hb
      · omega

theorem fromBeBytes_toBeBytes (w x : Nat) (h : x < 256 ^ w) :
    fromBeBytes (toBeBytes w x) = x := by
  induction w generalizing x with
  | zero => simp [pow_zero] at h; simp [toBeBytes, fromBeBytes, h]
  | succ w ih =>
      have hdiv : x / 256 < 256 ^ w := by
        rw [Nat.div_lt_iff_lt_mul (by omega)]
        calc x < 256 ^ (w + 1) := h
        _ = 256 ^ w * 256 := by ring
      simp only [toBeBytes, fromBeBytes, List.foldl_append, List.foldl_cons, List.foldl_nil]
      have := ih (x / 256) hdiv
      simp only [fromBeBytes] at this
      rw [this]
      omega

/-- C6: SerId serialization is a round trip: for every `x : IdType` (a 64-bit
word, so `x < 2 ^ 64`), deserializing the serialized form (base64 of the
big-endian 8-byte representation) yields `x` back; and deserialization rejects
with an error every string whose base64-decoded length differs from the byte
width of `IdType` (8). -/
theorem C6_serid_roundtrip :
    (∀ x : Nat, x < 2 ^ 64 → serIdVisitStr (serIdSerialize x) = Except.ok x) ∧
    (∀ v : List Char, ∀ bs : List Nat, b64DecodeChunks v = some bs → bs.length ≠ 8 →
      serIdVisitStr v = Except.error "Invalid ID length") := by
  constructor
  · intro x hx
    have hb : ∀ b ∈ toBeBytes 8 x, b < 256 := toBeBytes_lt 8 x
    have hr := b64_roundtrip (toBeBytes 8 x) hb
    unfold serIdVisitStr serIdSerialize
    rw [hr]
    have hlen : (toBeBytes 8 x).length = 8 := toBeBytes_length 8 x
    simp only [Option.elim_some]
    rw [if_neg (by simp [hlen])]
    have hpow : (256 : Nat) ^ 8 = 2 ^ 64 := by norm_num
    rw [fromBeBytes_toBeBytes 8 x (by rw [hpow]; exact hx)]
  · intro v bs hdec hlen
    unfold serIdVisitStr
    rw [hdec]
    simp only [Option.elim_some]
    rw [if_pos hlen]

/-- Witness for C6: the round trip evaluated at `x = 5`, and the rejection of
`"AAAA"`, which decodes to 3 bytes rather than 8. -/
theorem C6_serid_roundtrip_witness :
    serIdVisitStr (serIdSerialize 5) = Except.ok 5 ∧
    serIdVisitStr "AAAA".toList = Except.error "Invalid ID length" := by
  constructor
  · exact C6_serid_roundtrip.1 5 (by norm_num)
  · exact C6_serid_roundtrip.2 "AAAA".toList [0, 0, 0] (by decide) (by decide)

/-! ## Registries (`server_actor.rs`)

`HashMap<IdType, V>` is modelled as an association list with unique keys in
one fixed iteration order; `HashSet<IdType>` as a duplicate-free list. -/

/-- `HashMap::get`. -/
def mapGet {α : Type} : List (IdType × α) → IdType → Option α
  | [], _ => none
  | (k, v) :: rest, key => if k = key then some v else mapGet rest key

/-- `HashMap::insert` (replace the binding, or append a new one). -/
def mapSet {α : Type} : List (IdType × α) → IdType → α → List (IdType × α)
  | [], key, v => [(key, v)]
  | (k, v') :: rest, key, v =>
      if k = key then (k, v) :: rest else (k, v') :: mapSet rest key v

/-- `HashMap::remove` (of the binding). -/
def mapRemove {α : Type} (m : List (IdType × α)) (key : IdType) : List (IdType × α) :=
  m.filter (fun e => e.1 ≠ key)

/-- `HashMap::keys`. -/
def mapKeys {α : Type} (m : List (IdType × α)) : List IdType := m.map (·.1)

/-- `HashSet::insert`. -/
def setInsert (s : List IdType) (x : IdType) : List IdType :=
  if x ∈ s then s else s ++ [x]

/-- `HashSet::remove`. -/
def setRemove (s : List IdType) (x : IdType) : List IdType :=
  s.filter (fun y => y ≠ x)

/-! ## Protocol data (`protocol.rs`) -/

/-- `PlayerCosmetics { avatar: u32, color: u64 }`. -/
structure PlayerCosmetics where
  avatar : Nat
  color : Nat
deriving DecidableEq

/-- `PlayerObject` (the wire-visible player record). -/
structure PlayerObject where
  id : IdType
  username : String
  cosmetics : PlayerCosmetics
  is_host : Bool
deriving DecidableEq

/-- `LoginData { username, cosmetics }`. -/
structure LoginData where
  username : String
  cosmetics : PlayerCosmetics
deriving DecidableEq

/-- `RoomConnectionType`. -/
inductive RoomConnectionType
  | ServerBroadcast
deriving DecidableEq

/-- `OutEvent` (server-push events; `server_actor.rs` broadcasts these). -/
inductive OutEvent
  | EventPlayerJoined (player : PlayerObject)
  | EventPlayerLeft (player : IdType) (new_host : Option IdType)
  | EventPlayerAvatarChange (player : IdType) (cosmetics : PlayerCosmetics)
  | EventRoomStart (connection_type : RoomConnectionType) (broadcast_id : String)
deriving DecidableEq

/-- `OutGameEvent` (in-game variants). -/
inductive OutGameEvent
  | PlayerLeft (player : IdType) (new_host : Option IdType)
deriving DecidableEq

/-! ## Server actor state (`server_actor.rs`) -/

def MAX_PLAYERS_PER_ROOM : Nat := 8
def MIN_PLAYERS_PER_ROOM : Nat := 3

def RELAY_QUEUE_MAX_SIZE : Nat := 64

/-- `UserData` (the `addr` mailbox handle is identified with the player's
registry key: deliveries are recorded as `(key, payload)` pairs). -/
structure UserData where
  obj : PlayerObject
  room : Option IdType
  in_game : Bool
deriving DecidableEq

/-- `RoomState`. -/
inductive RoomState
  | Matchmaking
  | Playing
deriving DecidableEq

/-- `RoomData`; the `Option<SpawnHandle>` is modelled by whether a countdown
is scheduled. -/
structure RoomData where
  state : RoomState
  players : List IdType
  in_game_count : Nat
  start_countdown_handle : Bool
deriving DecidableEq

/-- `ServerActor` state (the `rng` lives outside the model: sampled ids are
passed as request arguments). -/
structure ServerActorState where
  players : List (IdType × UserData)
  rooms : List (IdType × RoomData)
  pub_rooms : List IdType
  pub_rooms_available : List IdType
deriving DecidableEq

def emptyServer : ServerActorState := ⟨[], [], [], []⟩

/-- A payload pushed to a session's mailbox (`Event`, `GameEvent`,
`SendRelayMexRaw`). -/
inductive Push
  | event (e : OutEvent)
  | gameEvent (e : OutGameEvent)
  | relayRaw (data : List Char)
deriving DecidableEq

/-- Deliveries produced by a handler: `(recipient player id, payload)`. -/
abbrev Sends := List (IdType × Push)

/-- `broadcast_event_room`: send `event` to each room member that resolves to
a registered player, skipping `skip_id` and members whose `in_game` is set. -/
def broadcast_event_room (room_data : RoomData) (players_by_id : List (IdType × UserData))
    (event : OutEvent) (skip_id : Option IdType) : Sends :=
  room_data.players.filterMap (fun id =>
    if skip_id = some id then none
    else
      match mapGet players_by_id id with
      | none => none
      | some player =>
          if player.in_game then none else some (id, Push.event event))

/-- `ServerActor::create_room`: insert a fresh room with the caller as sole
member and host; `room_id` stands for the id produced by the rejection-sampling
loop (`rng.gen` until unused). Returns `none` on the `unwrap` of a missing
host record. -/
def create_room (s : ServerActorState) (host_id : IdType) (isPublic : Bool)
    (room_id : IdType) : Option ServerActorState :=
  let room : RoomData :=
    { state := .Matchmaking, players := [host_id], in_game_count := 0,
      start_countdown_handle := false }
  let rooms' := mapSet s.rooms room_id room
  match mapGet s.players host_id with
  | none => none
  | some host =>
      let host' : UserData :=
        { host with room := some room_id, obj := { host.obj with is_host := true } }
      let players' := mapSet s.players host_id host'
      some { s with
        players := players'
        rooms := rooms'
        pub_rooms := if isPublic then setInsert s.pub_rooms room_id else s.pub_rooms
        pub_rooms_available :=
          if isPublic then setInsert s.pub_rooms_available room_id
          else s.pub_rooms_available }

/-- `ServerActor::remove_room`. -/
def remove_room (s : ServerActorState) (room_id : IdType) : ServerActorState :=
  { s with
    rooms := mapRemove s.rooms room_id
    pub_rooms := setRemove s.pub_rooms room_id
    pub_rooms_available := setRemove s.pub_rooms_available room_id }

/-- The `EventPlayerLeft` / in-game `PlayerLeft` fan-out at the end of
`leave_room_if_any`: in-game members get the in-game variant. -/
def leaveSends (players : List (IdType × UserData)) (remaining : List IdType)
    (player_id : IdType) (new_host : Option IdType) : Sends :=
  remaining.filterMap (fun id =>
    match mapGet players id with
    | none => none
    | some p =>
        if p.in_game then some (id, Push.gameEvent (.PlayerLeft player_id new_host))
        else some (id, Push.event (.EventPlayerLeft player_id new_host)))

/-- `ServerActor::leave_room_if_any`: remove the player from their room (if
any), cancel a countdown that falls below the minimum, mark a public room
available again when below capacity (no state check in the source), update
host/back-reference fields, promote a new host, and delete the room when it
empties. `none` models the `expect` panics. -/
def leave_room_if_any (s : ServerActorState) (player_id : IdType) :
    Option (ServerActorState × Sends) :=
  match mapGet s.players player_id with
  | none => some (s, [])
  | some player =>
      match player.room with
      | none => some (s, [])
      | some room_id =>
          match mapGet s.rooms room_id with
          | none => none
          | some room =>
              let remaining := setRemove room.players player_id
              let handle' :=
                if remaining.length < MIN_PLAYERS_PER_ROOM then false
                else room.start_countdown_handle
              let avail :=
                if room_id ∈ s.pub_rooms ∧ remaining.length < MAX_PLAYERS_PER_ROOM then
                  setInsert s.pub_rooms_available room_id
                else s.pub_rooms_available
              let igc :=
                if player.in_game then room.in_game_count - 1 else room.in_game_count
              let was_host := player.obj.is_host
              let player' : UserData :=
                { player with room := none, obj := { player.obj with is_host := false } }
              let players₁ := mapSet s.players player_id player'
              match remaining with
              | [] =>
                  let s₁ : ServerActorState :=
                    { s with players := players₁, pub_rooms_available := avail }
                  some (remove_room s₁ room_id, [])
              | first :: _ =>
                  let room' : RoomData :=
                    { state := room.state, players := remaining, in_game_count := igc,
                      start_countdown_handle := handle' }
                  if was_host then
                    match mapGet players₁ first with
                    | none => none
                    | some p =>
                        let p' : UserData :=
                          { p with obj := { p.obj with is_host := true } }
                        let players₂ := mapSet players₁ first p'
                        let s₁ : ServerActorState :=
                          { s with players := players₂
                                   rooms := mapSet s.rooms room_id room'
                                   pub_rooms_available := avail }
                        some (s₁, leaveSends players₂ remaining player_id (some p'.obj.id))
                  else
                    let s₁ : ServerActorState :=
                      { s with players := players₁
                               rooms := mapSet s.rooms room_id room'
                               pub_rooms_available := avail }
                    some (s₁, leaveSends players₁ remaining player_id none)

/-- The scan loop of `find_available_room_for`: walk `pub_rooms_available`,
stop when `max_iter > 0` iterations are exhausted, keep the last candidate
that passes `find_if`. `none` models the `unwrap` of a missing room. -/
def farLoop (rooms : List (IdType × RoomData)) (find_if : IdType → RoomData → Bool)
    (max_iter : Int) : List IdType → Int → Bool → IdType → Option (Bool × IdType)
  | [], _, found, fid => some (found, fid)
  | rid :: rest, iter, found, fid =>
      if max_iter > 0 ∧ iter ≥ max_iter then some (found, fid)
      else
        match mapGet rooms rid with
        | none => none
        | some rd =>
            if find_if rid rd then farLoop rooms find_if max_iter rest (iter + 1) true rid
            else farLoop rooms find_if max_iter rest (iter + 1) found fid

/-- `ServerActor::find_available_room_for`: scan the available public rooms
and insert the player into the found room's member set (the player's own
`room` field is NOT updated here). -/
def find_available_room_for (s : ServerActorState) (player_id : IdType)
    (find_if : IdType → RoomData → Bool) (max_iter : Int) :
    Option (ServerActorState × Option IdType) :=
  match farLoop s.rooms find_if max_iter s.pub_rooms_available 0 false 0 with
  | none => none
  | some (false, _) => some (s, none)
  | some (true, fid) =>
      match mapGet s.rooms fid with
      | none => none
      | some rd =>
          let rd' : RoomData := { rd with players := setInsert rd.players player_id }
          some ({ s with rooms := mapSet s.rooms fid rd' }, some fid)

/-- `players.iter().map(|x| self.players.get(x).expect(..).obj.clone())`:
collect the member objects, `none` when a member id is unregistered. -/
def collectPlayerObjs (players : List (IdType × UserData)) :
    List IdType → Option (List PlayerObject)
  | [] => some []
  | id :: rest =>
      match mapGet players id with
      | none => none
      | some u => (collectPlayerObjs players rest).map (u.obj :: ·)

/-- `FindRoomResult` (`server_actor.rs`; `GameIsFull` is declared but never
produced). -/
inductive FindRoomResult
  | Success (room_id : IdType) (players : List PlayerObject) (just_created : Bool)
  | GameIsFull
deriving DecidableEq

/-- `JoinRoomResult` as declared in `server_actor.rs`. -/
inductive JoinRoomResult
  | Success (players : List PlayerObject)
  | RoomNotFound
  | RoomIsFull
  | AlreadyPlaying
deriving DecidableEq

/-- A deferred `ctx.notify(JoinRoom { .. })` self-notification. -/
structure NotifyJoinRoom where
  id : IdType
  room_id : IdType
deriving DecidableEq

/-- `Handler<FindRoom>`: find an available public room (insert the caller into
its member set) or create a fresh public room (`fresh_room_id` models the
sampled id); joining an existing room only enqueues a deferred `JoinRoom`
self-notification, processed after the reply is produced. -/
def handleFindRoom (s : ServerActorState) (my_id : IdType) (fresh_room_id : IdType) :
    Option (ServerActorState × FindRoomResult × List NotifyJoinRoom) :=
  match find_available_room_for s my_id (fun _ _ => true) (-1) with
  | none => none
  | some (s₁, roomOpt) =>
      match roomOpt with
      | some room_id =>
          match mapGet s₁.rooms room_id with
          | none => none
          | some rd =>
              match collectPlayerObjs s₁.players rd.players with
              | none => none
              | some objs =>
                  some (s₁, .Success room_id objs false, [⟨my_id, room_id⟩])
      | none =>
          match create_room s₁ my_id true fresh_room_id with
          | none => none
          | some s₂ =>
              match mapGet s₂.rooms fresh_room_id with
              | none => none
              | some rd =>
                  match collectPlayerObjs s₂.players rd.players with
                  | none => none
                  | some objs =>
                      some (s₂, .Success fresh_room_id objs true, [])

/-- `Handler<JoinRoom>`: leave the current room first; then reject a missing
room (`RoomNotFound`), a non-matchmaking room (`AlreadyPlaying`) or a full
room (`RoomIsFull`); otherwise insert the player, set the back-reference,
broadcast `EventPlayerJoined` (skipping in-game members), arm the countdown
at the minimum, drop the room from `pub_rooms_available` at the maximum, and
reply with the post-join member list. -/
def handleJoinRoom (s : ServerActorState) (my_id room_id : IdType) :
    Option (ServerActorState × JoinRoomResult × Sends) :=
  match leave_room_if_any s my_id with
  | none => none
  | some (s₁, sends₁) =>
      match mapGet s₁.rooms room_id with
      | none => some (s₁, .RoomNotFound, sends₁)
      | some rd =>
          if rd.state ≠ .Matchmaking then some (s₁, .AlreadyPlaying, sends₁)
          else if rd.players.length ≥ MAX_PLAYERS_PER_ROOM then
            some (s₁, .RoomIsFull, sends₁)
          else
            let rd₁ : RoomData := { rd with players := setInsert rd.players my_id }
            match mapGet s₁.players my_id with
            | none => none
            | some user =>
                let user₁ : UserData := { user with room := some room_id }
                let players₁ := mapSet s₁.players my_id user₁
                let sendsB :=
                  broadcast_event_room rd₁ players₁ (.EventPlayerJoined user₁.obj) none
                let rd₂ : RoomData :=
                  if rd₁.players.length = MIN_PLAYERS_PER_ROOM then
                    { rd₁ with start_countdown_handle := true }
                  else rd₁
                let avail :=
                  if rd₂.players.length = MAX_PLAYERS_PER_ROOM then
                    setRemove s₁.pub_rooms_available room_id
                  else s₁.pub_rooms_available
                match collectPlayerObjs players₁ rd₂.players with
                | none => none
                | some objs =>
                    let s₂ : ServerActorState :=
                      { s₁ with players := players₁
                                rooms := mapSet s₁.rooms room_id rd₂
                                pub_rooms_available := avail }
                    some (s₂, .Success objs, sends₁ ++ sendsB)

/-- `Handler<EditCosmetics>`: no-op when unchanged; otherwise update and, when
the player is in a room, broadcast `EventPlayerAvatarChange` skipping the
initiator (and, inside `broadcast_event_room`, skipping in-game members). -/
def handleEditCosmetics (s : ServerActorState) (id : IdType) (obj : PlayerCosmetics) :
    Option (ServerActorState × Sends) :=
  match mapGet s.players id with
  | none => none
  | some player =>
      if player.obj.cosmetics = obj then some (s, [])
      else
        let player₁ : UserData := { player with obj := { player.obj with cosmetics := obj } }
        let players₁ := mapSet s.players id player₁
        match player₁.room with
        | none => some ({ s with players := players₁ }, [])
        | some room_id =>
            match mapGet s.rooms room_id with
            | none => none
            | some rd =>
                some ({ s with players := players₁ },
                  broadcast_event_room rd players₁
                    (.EventPlayerAvatarChange player₁.obj.id obj) (some id))

/-- The prefix of the rewritten relay payload:
`format!("\x7b\"sender\":\"{}\",", SerId(sender_id))`. -/
def relayPrefix (sender_id : IdType) : List Char :=
  '\x7b' :: '"' :: 's' :: 'e' :: 'n' :: 'd' :: 'e' :: 'r' :: '"' :: ':' :: '"' ::
    (serIdSerialize sender_id ++ ['"', ','])

/-- `Handler<SendRelayMex>`: drop empty payloads and senders without a live
room; otherwise replace the payload's leading byte by the sender-tagged
prefix and deliver to every other room member whose record resolves with
`in_game` set. State is never mutated. -/
def handleSendRelayMex (s : ServerActorState) (sender_id : IdType) (data : List Char) :
    Option (ServerActorState × Sends) :=
  if data = [] then some (s, [])
  else
    match mapGet s.players sender_id with
    | none => none
    | some player =>
        match player.room.bind (mapGet s.rooms) with
        | none => some (s, [])
        | some room =>
            let raw := relayPrefix sender_id ++ data.drop 1
            let sends := room.players.filterMap (fun pid =>
              if pid = sender_id then none
              else
                match mapGet s.players pid with
                | none => none
                | some p => if p.in_game then some (pid, Push.relayRaw raw) else none)
            some (s, sends)

/-- `Handler<GameEndRequest>`: `none` reply when the caller has no live room
or is not in-game; otherwise the room returns to `Matchmaking`, the caller's
`in_game` clears, `in_game_count` decrements, and the reply carries the
current member list (the room is NOT re-inserted into `pub_rooms_available`). -/
def handleGameEnd (s : ServerActorState) (id : IdType) :
    Option (ServerActorState × Option (List PlayerObject)) :=
  match mapGet s.players id with
  | none => none
  | some player =>
      match player.room with
      | none => some (s, none)
      | some room_id =>
          match mapGet s.rooms room_id with
          | none => some (s, none)
          | some room =>
              if ¬ player.in_game then some (s, none)
              else
                let room' : RoomData :=
                  { room with state := .Matchmaking, in_game_count := room.in_game_count - 1 }
                let player' : UserData := { player with in_game := false }
                let players₁ := mapSet s.players id player'
                match collectPlayerObjs players₁ room'.players with
                | none => none
                | some objs =>
                    let s₁ : ServerActorState :=
                      { s with players := players₁
                               rooms := mapSet s.rooms room_id room' }
                    some (s₁, some objs)

/-- The straggler-kick loop of `Handler<StartRoom>`: apply
`leave_room_if_any` to each listed player in order. -/
def leaveMany : ServerActorState → List IdType → Option (ServerActorState × Sends)
  | s, [] => some (s, [])
  | s, pid :: rest =>
      match leave_room_if_any s pid with
      | none => none
      | some (s', sends) =>
          match leaveMany s' rest with
          | none => none
          | some (s'', sends') => some (s'', sends ++ sends')

/-- The start fan-out loop of `Handler<StartRoom>`: set each resolvable
member's `in_game` and push the `EventRoomStart` event to it. -/
def setMembersInGame (ev : OutEvent) : List IdType → List (IdType × UserData) →
    List (IdType × UserData) × Sends
  | [], ps => (ps, [])
  | pid :: rest, ps =>
      match mapGet ps pid with
      | none => setMembersInGame ev rest ps
      | some u =>
          let ps' := mapSet ps pid { u with in_game := true }
          let r := setMembersInGame ev rest ps'
          (r.1, (pid, Push.event ev) :: r.2)

/-- `Handler<StartRoom>`: resolve the caller's room; cancel any countdown and
drop the room from `pub_rooms_available` (both persist even when the start is
then refused); refuse when not matchmaking or below 2 members; otherwise go
`Playing`, kick lingering in-game members, then mark every member in-game,
push `EventRoomStart` to each, and set `in_game_count`. -/
def handleStartRoom (s : ServerActorState) (id : IdType) (conn_type : RoomConnectionType) :
    Option (ServerActorState × Sends) :=
  match (mapGet s.players id).bind (fun x => x.room) with
  | none => some (s, [])
  | some room_id =>
      match mapGet s.rooms room_id with
      | none => some (s, [])
      | some room =>
          let room₁ : RoomData := { room with start_countdown_handle := false }
          let s₁ : ServerActorState :=
            { s with rooms := mapSet s.rooms room_id room₁
                     pub_rooms_available := setRemove s.pub_rooms_available room_id }
          if room₁.state ≠ .Matchmaking ∨ room₁.players.length < 2 then some (s₁, [])
          else
            let room₂ : RoomData := { room₁ with state := .Playing }
            let s₂ : ServerActorState := { s₁ with rooms := mapSet s₁.rooms room_id room₂ }
            let event : OutEvent := .EventRoomStart conn_type (toString room_id)
            if room₂.in_game_count > 0 then
              let igp := room₂.players.filter (fun pid =>
                match mapGet s₂.players pid with
                | some u => u.in_game
                | none => false)
              match leaveMany s₂ igp with
              | none => none
              | some (s₃, sendsK) =>
                  match mapGet s₃.rooms room_id with
                  | none => some (s₃, sendsK)
                  | some room₃ =>
                      let r := setMembersInGame event room₃.players s₃.players
                      let room₄ : RoomData :=
                        { room₃ with in_game_count := room₃.players.length }
                      let s₄ : ServerActorState :=
                        { s₃ with players := r.1
                                  rooms := mapSet s₃.rooms room_id room₄ }
                      some (s₄, sendsK ++ r.2)
            else
              let r := setMembersInGame event room₂.players s₂.players
              let room₃ : RoomData := { room₂ with in_game_count := room₂.players.length }
              let s₃ : ServerActorState :=
                { s₂ with players := r.1
                          rooms := mapSet s₂.rooms room_id room₃ }
              some (s₃, r.2)

/-- `Handler<RegisterSession>`: with an id, refresh username/cosmetics unless
the player is in a room; without, insert a fresh record under `freshId` (the
id produced by `allocate_player_id`'s rejection sampling). -/
def handleRegisterSession (s : ServerActorState) (idOpt : Option IdType) (obj : LoginData)
    (freshId : IdType) : Option (ServerActorState × IdType) :=
  match idOpt with
  | some id =>
      match mapGet s.players id with
      | none => none
      | some player =>
          match player.room with
          | none =>
              let player' : UserData :=
                { player with obj :=
                    { player.obj with username := obj.username, cosmetics := obj.cosmetics } }
              some ({ s with players := mapSet s.players id player' }, id)
          | some _ => some (s, id)
  | none =>
      let pobj : PlayerObject :=
        { id := freshId, username := obj.username, cosmetics := obj.cosmetics,
          is_host := false }
      let data : UserData := { obj := pobj, room := none, in_game := false }
      some ({ s with players := mapSet s.players freshId data }, freshId)

/-- `Handler<Disconnect>`: leave the room, then drop the player record. -/
def handleDisconnect (s : ServerActorState) (id : IdType) :
    Option (ServerActorState × Sends) :=
  match leave_room_if_any s id with
  | none => none
  | some (s₁, sends) => some ({ s₁ with players := mapRemove s₁.players id }, sends)

/-- `Handler<CreateRoom>`: leave the current room, then create a private room
(`fresh_room_id` models the sampled id); reply carries the caller's object. -/
def handleCreateRoom (s : ServerActorState) (id : IdType) (fresh_room_id : IdType) :
    Option (ServerActorState × IdType × PlayerObject) :=
  match leave_room_if_any s id with
  | none => none
  | some (s₁, _) =>
      match create_room s₁ id false fresh_room_id with
      | none => none
      | some s₂ =>
          match mapGet s₂.players id with
          | none => none
          | some player => some (s₂, fresh_room_id, player.obj)

/-- The coordinator's request surface; `freshId` arguments carry the results
of the rejection-sampling loops. -/
inductive Request
  | registerSession (id : Option IdType) (login : LoginData) (freshId : IdType)
  | disconnect (id : IdType)
  | editCosmetics (id : IdType) (obj : PlayerCosmetics)
  | findRoom (id : IdType) (freshId : IdType)
  | createRoom (id : IdType) (freshId : IdType)
  | joinRoom (id : IdType) (room_id : IdType)
  | leaveRoom (id : IdType)
  | startRoom (id : IdType) (conn_type : RoomConnectionType)
  | sendRelayMex (sender_id : IdType) (data : List Char)
  | gameEndRequest (id : IdType)
deriving DecidableEq

/-- One coordinator request, projected to its state effect (`none` models a
handler panic). -/
def serverStep (r : Request) (s : ServerActorState) : Option ServerActorState :=
  match r with
  | .registerSession idOpt login freshId =>
      (handleRegisterSession s idOpt login freshId).map (fun x => x.1)
  | .disconnect id => (handleDisconnect s id).map (fun x => x.1)
  | .editCosmetics id obj => (handleEditCosmetics s id obj).map (fun x => x.1)
  | .findRoom id freshId => (handleFindRoom s id freshId).map (fun x => x.1)
  | .createRoom id freshId => (handleCreateRoom s id freshId).map (fun x => x.1)
  | .joinRoom id room_id => (handleJoinRoom s id room_id).map (fun x => x.1)
  | .leaveRoom id => (leave_room_if_any s id).map (fun x => x.1)
  | .startRoom id ct => (handleStartRoom s id ct).map (fun x => x.1)
  | .sendRelayMex id data => (handleSendRelayMex s id data).map (fun x => x.1)
  | .gameEndRequest id => (handleGameEnd s id).map (fun x => x.1)

/-- Run a request trace from a state. -/
def runRequests : List Request → ServerActorState → Option ServerActorState
  | [], s => some s
  | r :: rest, s =>
      match serverStep r s with
      | none => none
      | some s' => runRequests rest s'

/-! ## Invariants (spec §3) -/

/-- I1, decidably: every player's `room` back-reference points to an existing
room containing the player's id, and every room member id identifies a
registered player whose `room` is that room. -/
def I1bool (s : ServerActorState) : Bool :=
  s.players.all (fun e =>
    match e.2.room with
    | none => true
    | some rid =>
        match mapGet s.rooms rid with
        | none => false
        | some rd => rd.players.contains e.1) &&
  s.rooms.all (fun r =>
    r.2.players.all (fun pid =>
      match mapGet s.players pid with
      | none => false
      | some u => u.room == some r.1))

/-- I4, decidably: `pub_rooms_available ⊆ pub_rooms ⊆ keys rooms`, and a
public room is in `pub_rooms_available` iff it is matchmaking and below
capacity. -/
def I4bool (s : ServerActorState) : Bool :=
  s.pub_rooms_available.all (fun x => s.pub_rooms.contains x) &&
  s.pub_rooms.all (fun x => (mapKeys s.rooms).contains x) &&
  s.pub_rooms.all (fun rid =>
    match mapGet s.rooms rid with
    | none => false
    | some rd =>
        s.pub_rooms_available.contains rid ==
          (decide (rd.state = .Matchmaking) && decide (rd.players.length < MAX_PLAYERS_PER_ROOM)))

/-- The forward half of I1: a set `room` field points at an existing room
that contains the player. -/
def I1fwd (s : ServerActorState) : Prop :=
  ∀ pid u rid, mapGet s.players pid = some u → u.room = some rid →
    ∃ rd, mapGet s.rooms rid = some rd ∧ pid ∈ rd.players

/-- The subset chain of I4. -/
def ChainSub (s : ServerActorState) : Prop :=
  (∀ x ∈ s.pub_rooms_available, x ∈ s.pub_rooms) ∧
    ∀ x ∈ s.pub_rooms, x ∈ mapKeys s.rooms

/-- Two players register; the first creates a public room via `FindRoom`. -/
def C1trace : List Request :=
  [.registerSession none ⟨"a", ⟨0, 0⟩⟩ 1,
   .registerSession none ⟨"b", ⟨0, 0⟩⟩ 2,
   .findRoom 1 10]

/-- C1 counterexample: I1 holds up to the point where player 2 issues
`FindRoom`; at the moment that request's reply is produced, player 2 is
already in room 10's member set but its `room` field is still `none` (the
update is deferred to a `ctx.notify(JoinRoom)`), so I1 fails. -/
theorem C1_counterexample :
    (runRequests C1trace emptyServer).map I1bool = some true ∧
    (runRequests (C1trace ++ [.findRoom 2 11]) emptyServer).map I1bool = some false := by
  decide

/-- Two players register, matchmake into public room 10, and start it. -/
def C2trace : List Request :=
  [.registerSession none ⟨"a", ⟨0, 0⟩⟩ 1,
   .registerSession none ⟨"b", ⟨0, 0⟩⟩ 2,
   .findRoom 1 10,
   .joinRoom 2 10,
   .startRoom 1 .ServerBroadcast]

/-- C2 counterexample: I4 holds after the public room 10 starts playing, but
after `GameEndRequest` sets the room back to `Matchmaking` (with 2 < 8
members) the room is not re-inserted into `pub_rooms_available`, so the
biconditional of I4 fails. -/
theorem C2_counterexample :
    (runRequests C2trace emptyServer).map I4bool = some true ∧
    (runRequests (C2trace ++ [.gameEndRequest 1]) emptyServer).map I4bool = some false := by
  decide

/-! ## Registry lemmas -/

theorem mem_setInsert {x y : IdType} {s : List IdType} :
    x ∈ setInsert s y ↔ x ∈ s ∨ x = y := by
  unfold setInsert
  split
  · constructor
    · exact fun h => Or.inl h
    · rintro (h | rfl) <;> assumption
  · simp

theorem mem_setRemove {x y : IdType} {s : List IdType} :
    x ∈ setRemove s y ↔ x ∈ s ∧ x ≠ y := by
  simp [setRemove]

theorem mem_mapKeys_mapSet {α : Type} {m : List (IdType × α)} {k x : IdType} {v : α} :
    x ∈ mapKeys (mapSet m k v) ↔ x ∈ mapKeys m ∨ x = k := by
  induction m with
  | nil => simp [mapSet, mapKeys]
  | cons e rest ih =>
      obtain ⟨k', v'⟩ := e
      by_cases h : k' = k
      · subst h
        have hset : mapSet ((k', v') :: rest) k' v = (k', v) :: rest := by
          simp [mapSet]
        rw [hset]
        simp only [mapKeys, List.map_cons, List.mem_cons]
        tauto
      · have hset : mapSet ((k', v') :: rest) k v = (k', v') :: mapSet rest k v := by
          simp [mapSet, h]
        rw [hset]
        simp only [mapKeys, List.map_cons, List.mem_cons] at ih ⊢
        rw [ih]
        tauto

theorem mem_mapKeys_mapRemove {α : Type} {m : List (IdType × α)} {k x : IdType} :
    x ∈ mapKeys (mapRemove m k) ↔ x ∈ mapKeys m ∧ x ≠ k := by
  simp only [mapKeys, mapRemove, List.mem_map, List.mem_filter]
  constructor
  · rintro ⟨e, ⟨he, hk⟩, rfl⟩
    exact ⟨⟨e, he, rfl⟩, by simpa using hk⟩
  · rintro ⟨⟨e, he, rfl⟩, hk⟩
    exact ⟨e, ⟨he, by simpa using hk⟩, rfl⟩

theorem mapGet_mapSet_self {α : Type} {m : List (IdType × α)} {k : IdType} {v : α} :
    mapGet (mapSet m k v) k = some v := by
  induction m with
  | nil => simp [mapSet, mapGet]
  | cons e rest ih =>
      obtain ⟨k', v'⟩ := e
      by_cases h : k' = k
      · subst h; simp [mapSet, mapGet]
      · simp [mapSet, mapGet, h, ih]

theorem mapGet_mapSet_ne {α : Type} {m : List (IdType × α)} {k k' : IdType} {v : α}
    (h : k ≠ k') : mapGet (mapSet m k v) k' = mapGet m k' := by
  induction m with
  | nil => simp [mapSet, mapGet, h]
  | cons e rest ih =>
      obtain ⟨k0, v0⟩ := e
      by_cases h0 : k0 = k
      · subst h0; simp [mapSet, mapGet, h]
      · simp only [mapSet, if_neg h0, mapGet]
        split <;> simp [ih]

theorem mapGet_mem_mapKeys {α : Type} {m : List (IdType × α)} {k : IdType} {v : α}
    (h : mapGet m k = some v) : k ∈ mapKeys m := by
  induction m with
  | nil => simp [mapGet] at h
  | cons e rest ih =>
      obtain ⟨k', v'⟩ := e
      simp only [mapGet] at h
      by_cases hk : k' = k
      · subst hk; simp [mapKeys]
      · rw [if_neg hk] at h
        simp [mapKeys] at ih ⊢
        exact Or.inr (ih h)

/-! ## Preservation of the I4 subset chain -/

theorem chain_availInsert {s : ServerActorState} {rid : IdType} {c : Prop} [Decidable c]
    (hc : ChainSub s) (hmem : c → rid ∈ s.pub_rooms) :
    ∀ x ∈ (if c then setInsert s.pub_rooms_available rid else s.pub_rooms_available),
      x ∈ s.pub_rooms := by
  intro x hx
  split at hx
  · rcases mem_setInsert.1 hx with h | rfl
    · exact hc.1 x h
    · exact hmem (by assumption)
  · exact hc.1 x hx

theorem chain_create {s s' : ServerActorState} {hid rid : IdType} {isPub : Bool}
    (h : create_room s hid isPub rid = some s') (hc : ChainSub s) : ChainSub s' := by
  simp only [create_room] at h
  split at h
  · exact absurd h (by simp)
  · simp only [Option.some.injEq] at h
    subst h
    by_cases hp : isPub = true
    · refine ⟨fun x hx => ?_, fun x hx => ?_⟩
      · simp only [if_pos hp] at hx ⊢
        rcases mem_setInsert.1 hx with h' | rfl
        · exact mem_setInsert.2 (Or.inl (hc.1 x h'))
        · exact mem_setInsert.2 (Or.inr rfl)
      · simp only [if_pos hp] at hx
        rcases mem_setInsert.1 hx with h' | rfl
        · exact mem_mapKeys_mapSet.2 (Or.inl (hc.2 x h'))
        · exact mem_mapKeys_mapSet.2 (Or.inr rfl)
    · refine ⟨fun x hx => ?_, fun x hx => ?_⟩
      · simp only [if_neg hp] at hx ⊢
        exact hc.1 x hx
      · simp only [if_neg hp] at hx
        exact mem_mapKeys_mapSet.2 (Or.inl (hc.2 x hx))

theorem chain_leave {s s' : ServerActorState} {pid : IdType} {sends : Sends}
    (h : leave_room_if_any s pid = some (s', sends)) (hc : ChainSub s) : ChainSub s' := by
  simp only [leave_room_if_any] at h
  split at h
  · simp only [Option.some.injEq, Prod.mk.injEq] at h
    exact h.1 ▸ hc
  · split at h
    · simp only [Option.some.injEq, Prod.mk.injEq] at h
      exact h.1 ▸ hc
    · split at h
      · exact absurd h (by simp)
      · rename_i player hroom room_id room hget
        split at h
        · -- the room emptied: remove_room
          simp only [Option.some.injEq, Prod.mk.injEq] at h
          obtain ⟨h1, _⟩ := h
          subst h1
          constructor
          · intro x hx
            simp only [remove_room] at hx ⊢
            rcases mem_setRemove.1 hx with ⟨hxA, hne⟩
            refine mem_setRemove.2 ⟨?_, hne⟩
            exact chain_availInsert hc (fun hcnd => hcnd.1) x hxA
          · intro x hx
            simp only [remove_room] at hx ⊢
            rcases mem_setRemove.1 hx with ⟨hxp, hne⟩
            exact mem_mapKeys_mapRemove.2 ⟨hc.2 x hxp, hne⟩
        · -- the room still has members
          split at h
          · split at h
            · exact absurd h (by simp)
            · simp only [Option.some.injEq, Prod.mk.injEq] at h
              obtain ⟨h1, _⟩ := h
              subst h1
              refine ⟨?_, ?_⟩
              · intro x hx
                exact chain_availInsert hc (fun hcnd => hcnd.1) x hx
              · intro x hx
                exact mem_mapKeys_mapSet.2 (Or.inl (hc.2 x hx))
          · simp only [Option.some.injEq, Prod.mk.injEq] at h
            obtain ⟨h1, _⟩ := h
            subst h1
            refine ⟨?_, ?_⟩
            · intro x hx
              exact chain_availInsert hc (fun hcnd => hcnd.1) x hx
            · intro x hx
              exact mem_mapKeys_mapSet.2 (Or.inl (hc.2 x hx))

theorem mem_ifSetRemove {x rid : IdType} {A : List IdType} {c : Prop} [Decidable c]
    (hx : x ∈ (if c then setRemove A rid else A)) : x ∈ A := by
  split at hx
  · exact (mem_setRemove.1 hx).1
  · exact hx

theorem chain_far {s s' : ServerActorState} {pid : IdType} {f : IdType → RoomData → Bool}
    {mi : Int} {ro : Option IdType}
    (h : find_available_room_for s pid f mi = some (s', ro)) (hc : ChainSub s) :
    ChainSub s' := by
  simp only [find_available_room_for] at h
  split at h
  · exact absurd h (by simp)
  · simp only [Option.some.injEq, Prod.mk.injEq] at h
    exact h.1 ▸ hc
  · split at h
    · exact absurd h (by simp)
    · simp only [Option.some.injEq, Prod.mk.injEq] at h
      obtain ⟨h1, _⟩ := h
      subst h1
      exact ⟨fun x hx => hc.1 x hx, fun x hx => mem_mapKeys_mapSet.2 (Or.inl (hc.2 x hx))⟩

theorem chain_leaveMany : ∀ {l : List IdType} {s s' : ServerActorState} {sends : Sends},
    leaveMany s l = some (s', sends) → ChainSub s → ChainSub s' := by
  intro l
  induction l with
  | nil =>
      intro s s' sends h hc
      simp only [leaveMany, Option.some.injEq, Prod.mk.injEq] at h
      exact h.1 ▸ hc
  | cons pid rest ih =>
      intro s s' sends h hc
      simp only [leaveMany] at h
      split at h
      · exact absurd h (by simp)
      · rename_i p heq
        split at h
        · exact absurd h (by simp)
        · rename_i q heq'
          simp only [Option.some.injEq, Prod.mk.injEq] at h
          obtain ⟨h1, _⟩ := h
          subst h1
          exact ih heq' (chain_leave heq hc)

theorem chain_join {s s' : ServerActorState} {my rid : IdType} {rep : JoinRoomResult}
    {sends : Sends} (h : handleJoinRoom s my rid = some (s', rep, sends)) (hc : ChainSub s) :
    ChainSub s' := by
  simp only [handleJoinRoom] at h
  split at h
  · exact absurd h (by simp)
  · rename_i s₁ sends₁ heq
    have hc₁ : ChainSub s₁ := chain_leave heq hc
    split at h
    · simp only [Option.some.injEq, Prod.mk.injEq] at h
      exact h.1 ▸ hc₁
    · split at h
      · simp only [Option.some.injEq, Prod.mk.injEq] at h
        exact h.1 ▸ hc₁
      · split at h
        · simp only [Option.some.injEq, Prod.mk.injEq] at h
          exact h.1 ▸ hc₁
        · split at h
          · exact absurd h (by simp)
          · split at h
            · exact absurd h (by simp)
            · simp only [Option.some.injEq, Prod.mk.injEq] at h
              obtain ⟨h1, _⟩ := h
              subst h1
              exact ⟨fun x hx => hc₁.1 x (mem_ifSetRemove hx),
                fun x hx => mem_mapKeys_mapSet.2 (Or.inl (hc₁.2 x hx))⟩

theorem chain_start {s s' : ServerActorState} {id : IdType} {ct : RoomConnectionType}
    {sends : Sends} (h : handleStartRoom s id ct = some (s', sends)) (hc : ChainSub s) :
    ChainSub s' := by
  simp only [handleStartRoom] at h
  split at h
  · simp only [Option.some.injEq, Prod.mk.injEq] at h
    exact h.1 ▸ hc
  · split at h
    · simp only [Option.some.injEq, Prod.mk.injEq] at h
      exact h.1 ▸ hc
    · split at h
      · simp only [Option.some.injEq, Prod.mk.injEq] at h
        obtain ⟨h1, _⟩ := h
        subst h1
        exact ⟨fun x hx => hc.1 x (mem_setRemove.1 hx).1,
          fun x hx => mem_mapKeys_mapSet.2 (Or.inl (hc.2 x hx))⟩
      · split at h
        · split at h
          · exact absurd h (by simp)
          · rename_i s₃ sendsK heqL
            have hc₃ : ChainSub s₃ := chain_leaveMany heqL
              ⟨fun x hx => hc.1 x (mem_setRemove.1 hx).1,
               fun x hx => mem_mapKeys_mapSet.2 (Or.inl
                 (mem_mapKeys_mapSet.2 (Or.inl (hc.2 x hx))))⟩
            split at h
            · simp only [Option.some.injEq, Prod.mk.injEq] at h
              exact h.1 ▸ hc₃
            · simp only [Option.some.injEq, Prod.mk.injEq] at h
              obtain ⟨h1, _⟩ := h
              subst h1
              exact ⟨fun x hx => hc₃.1 x hx,
                fun x hx => mem_mapKeys_mapSet.2 (Or.inl (hc₃.2 x hx))⟩
        · simp only [Option.some.injEq, Prod.mk.injEq] at h
          obtain ⟨h1, _⟩ := h
          subst h1
          exact ⟨fun x hx => hc.1 x (mem_setRemove.1 hx).1,
            fun x hx => mem_mapKeys_mapSet.2 (Or.inl (mem_mapKeys_mapSet.2 (Or.inl
              (mem_mapKeys_mapSet.2 (Or.inl (hc.2 x hx))))))⟩

theorem chain_gameEnd {s s' : ServerActorState} {id : IdType} {rep : Option (List PlayerObject)}
    (h : handleGameEnd s id = some (s', rep)) (hc : ChainSub s) : ChainSub s' := by
  simp only [handleGameEnd] at h
  split at h
  · exact absurd h (by simp)
  · split at h
    · simp only [Option.some.injEq, Prod.mk.injEq] at h
      exact h.1 ▸ hc
    · split at h
      · simp only [Option.some.injEq, Prod.mk.injEq] at h
        exact h.1 ▸ hc
      · split at h
        · simp only [Option.some.injEq, Prod.mk.injEq] at h
          exact h.1 ▸ hc
        · split at h
          · exact absurd h (by simp)
          · simp only [Option.some.injEq, Prod.mk.injEq] at h
            obtain ⟨h1, _⟩ := h
            subst h1
            exact ⟨fun x hx => hc.1 x hx,
              fun x hx => mem_mapKeys_mapSet.2 (Or.inl (hc.2 x hx))⟩

theorem chain_edit {s s' : ServerActorState} {id : IdType} {obj : PlayerCosmetics}
    {sends : Sends} (h : handleEditCosmetics s id obj = some (s', sends)) (hc : ChainSub s) :
    ChainSub s' := by
  simp only [handleEditCosmetics] at h
  split at h
  · exact absurd h (by simp)
  · split at h
    · simp only [Option.some.injEq, Prod.mk.injEq] at h
      exact h.1 ▸ hc
    · split at h
      · simp only [Option.some.injEq, Prod.mk.injEq] at h
        obtain ⟨h1, _⟩ := h
        subst h1
        exact ⟨fun x hx => hc.1 x hx, fun x hx => hc.2 x hx⟩
      · split at h
        · exact absurd h (by simp)
        · simp only [Option.some.injEq, Prod.mk.injEq] at h
          obtain ⟨h1, _⟩ := h
          subst h1
          exact ⟨fun x hx => hc.1 x hx, fun x hx => hc.2 x hx⟩

theorem chain_register {s s' : ServerActorState} {idOpt : Option IdType} {obj : LoginData}
    {freshId rid : IdType} (h : handleRegisterSession s idOpt obj freshId = some (s', rid))
    (hc : ChainSub s) : ChainSub s' := by
  simp only [handleRegisterSession] at h
  split at h
  · split at h
    · exact absurd h (by simp)
    · split at h
      · simp only [Option.some.injEq, Prod.mk.injEq] at h
        obtain ⟨h1, _⟩ := h
        subst h1
        exact ⟨fun x hx => hc.1 x hx, fun x hx => hc.2 x hx⟩
      · simp only [Option.some.injEq, Prod.mk.injEq] at h
        exact h.1 ▸ hc
  · simp only [Option.some.injEq, Prod.mk.injEq] at h
    obtain ⟨h1, _⟩ := h
    subst h1
    exact ⟨fun x hx => hc.1 x hx, fun x hx => hc.2 x hx⟩

theorem chain_relay {s s' : ServerActorState} {id : IdType} {data : List Char}
    {sends : Sends} (h : handleSendRelayMex s id data = some (s', sends)) (hc : ChainSub s) :
    ChainSub s' := by
  simp only [handleSendRelayMex] at h
  split at h
  · simp only [Option.some.injEq, Prod.mk.injEq] at h
    exact h.1 ▸ hc
  · split at h
    · exact absurd h (by simp)
    · split at h
      · simp only [Option.some.injEq, Prod.mk.injEq] at h
        exact h.1 ▸ hc
      · simp only [Option.some.injEq, Prod.mk.injEq] at h
        exact h.1 ▸ hc

theorem chain_disconnect {s s' : ServerActorState} {id : IdType} {sends : Sends}
    (h : handleDisconnect s id = some (s', sends)) (hc : ChainSub s) : ChainSub s' := by
  simp only [handleDisconnect] at h
  split at h
  · exact absurd h (by simp)
  · rename_i s₁ sends₁ heq
    have hc₁ := chain_leave heq hc
    simp only [Option.some.injEq, Prod.mk.injEq] at h
    obtain ⟨h1, _⟩ := h
    subst h1
    exact ⟨fun x hx => hc₁.1 x hx, fun x hx => hc₁.2 x hx⟩

theorem chain_find {s s' : ServerActorState} {id freshId : IdType} {rep : FindRoomResult}
    {nots : List NotifyJoinRoom} (h : handleFindRoom s id freshId = some (s', rep, nots))
    (hc : ChainSub s) : ChainSub s' := by
  simp only [handleFindRoom] at h
  split at h
  · exact absurd h (by simp)
  · rename_i s₁ ro heq
    have hc₁ := chain_far heq hc
    split at h
    · split at h
      · exact absurd h (by simp)
      · split at h
        · exact absurd h (by simp)
        · simp only [Option.some.injEq, Prod.mk.injEq] at h
          exact h.1 ▸ hc₁
    · split at h
      · exact absurd h (by simp)
      · rename_i s₂ heq₂
        have hc₂ := chain_create heq₂ hc₁
        split at h
        · exact absurd h (by simp)
        · split at h
          · exact absurd h (by simp)
          · simp only [Option.some.injEq, Prod.mk.injEq] at h
            exact h.1 ▸ hc₂

theorem chain_createRoom {s s' : ServerActorState} {id freshId rid : IdType}
    {obj : PlayerObject} (h : handleCreateRoom s id freshId = some (s', rid, obj))
    (hc : ChainSub s) : ChainSub s' := by
  simp only [handleCreateRoom] at h
  split at h
  · exact absurd h (by simp)
  · rename_i s₁ sends₁ heq
    have hc₁ := chain_leave heq hc
    split at h
    · exact absurd h (by simp)
    · rename_i s₂ heq₂
      have hc₂ := chain_create heq₂ hc₁
      split at h
      · exact absurd h (by simp)
      · simp only [Option.some.injEq, Prod.mk.injEq] at h
        exact h.1 ▸ hc₂

/-- C2, amended: the subset chain of I4 —
`pub_rooms_available ⊆ pub_rooms ⊆ keys (rooms)` — is preserved by every
coordinator request. The biconditional half of I4 is NOT an invariant of the
code: `leave_room_if_any` re-marks a public room available without checking
`state = Matchmaking`, and `GameEndRequest` returns a room to `Matchmaking`
without re-inserting it into `pub_rooms_available` (see the counterexample). -/
theorem C2_pub_room_chain_preserved (r : Request) (s s' : ServerActorState)
    (h : serverStep r s = some s') (hc : ChainSub s) : ChainSub s' := by
  cases r with
  | registerSession idOpt login freshId =>
      simp only [serverStep] at h
      rcases Option.map_eq_some'.1 h with ⟨⟨s₁, rid⟩, ha, hb⟩
      cases hb
      exact chain_register ha hc
  | disconnect id =>
      simp only [serverStep] at h
      rcases Option.map_eq_some'.1 h with ⟨⟨s₁, out⟩, ha, hb⟩
      cases hb
      exact chain_disconnect ha hc
  | editCosmetics id obj =>
      simp only [serverStep] at h
      rcases Option.map_eq_some'.1 h with ⟨⟨s₁, out⟩, ha, hb⟩
      cases hb
      exact chain_edit ha hc
  | findRoom id freshId =>
      simp only [serverStep] at h
      rcases Option.map_eq_some'.1 h with ⟨⟨s₁, rep, nots⟩, ha, hb⟩
      cases hb
      exact chain_find ha hc
  | createRoom id freshId =>
      simp only [serverStep] at h
      rcases Option.map_eq_some'.1 h with ⟨⟨s₁, rid, obj⟩, ha, hb⟩
      cases hb
      exact chain_createRoom ha hc
  | joinRoom id room_id =>
      simp only [serverStep] at h
      rcases Option.map_eq_some'.1 h with ⟨⟨s₁, rep, sends⟩, ha, hb⟩
      cases hb
      exact chain_join ha hc
  | leaveRoom id =>
      simp only [serverStep] at h
      rcases Option.map_eq_some'.1 h with ⟨⟨s₁, sends⟩, ha, hb⟩
      cases hb
      exact chain_leave ha hc
  | startRoom id ct =>
      simp only [serverStep] at h
      rcases Option.map_eq_some'.1 h with ⟨⟨s₁, sends⟩, ha, hb⟩
      cases hb
      exact chain_start ha hc
  | sendRelayMex id data =>
      simp only [serverStep] at h
      rcases Option.map_eq_some'.1 h with ⟨⟨s₁, sends⟩, ha, hb⟩
      cases hb
      exact chain_relay ha hc
  | gameEndRequest id =>
      simp only [serverStep] at h
      rcases Option.map_eq_some'.1 h with ⟨⟨s₁, rep⟩, ha, hb⟩
      cases hb
      exact chain_gameEnd ha hc

/-- Witness for the amended C2: the chain after a registration step from the
empty coordinator state. -/
theorem C2_pub_room_chain_preserved_witness :
    ChainSub { players := [(1, ⟨⟨1, "a", ⟨0, 0⟩, false⟩, none, false⟩)], rooms := [],
               pub_rooms := [], pub_rooms_available := [] } :=
  C2_pub_room_chain_preserved (.registerSession none ⟨"a", ⟨0, 0⟩⟩ 1) emptyServer _
    rfl ⟨by simp [emptyServer], by simp [emptyServer]⟩

/-! ## I1 forward preservation for FindRoom (C1) -/

theorem far_none_state {s s' : ServerActorState} {pid : IdType}
    {f : IdType → RoomData → Bool} {mi : Int}
    (h : find_available_room_for s pid f mi = some (s', none)) : s' = s := by
  simp only [find_available_room_for] at h
  split at h
  · exact absurd h (by simp)
  · simp only [Option.some.injEq, Prod.mk.injEq] at h
    exact h.1.symm
  · split at h
    · exact absurd h (by simp)
    · simp only [Option.some.injEq, Prod.mk.injEq] at h
      exact absurd h.2 (by simp)

theorem i1fwd_far {s s' : ServerActorState} {pid : IdType}
    {f : IdType → RoomData → Bool} {mi : Int} {ro : Option IdType}
    (h : find_available_room_for s pid f mi = some (s', ro)) (hf : I1fwd s) : I1fwd s' := by
  simp only [find_available_room_for] at h
  split at h
  · exact absurd h (by simp)
  · simp only [Option.some.injEq, Prod.mk.injEq] at h
    exact h.1 ▸ hf
  · rename_i fid hfar
    split at h
    · exact absurd h (by simp)
    · rename_i rd hrd
      simp only [Option.some.injEq, Prod.mk.injEq] at h
      obtain ⟨h1, _⟩ := h
      subst h1
      intro pid' u rid hget hroom
      rcases hf pid' u rid hget hroom with ⟨rd₀, hrd₀, hmem⟩
      by_cases hr : rid = fid
      · subst hr
        refine ⟨{ rd with players := setInsert rd.players pid }, mapGet_mapSet_self, ?_⟩
        have : rd₀ = rd := by
          rw [hrd₀] at hrd
          exact Option.some_inj.mp hrd
        exact mem_setInsert.2 (Or.inl (this ▸ hmem))
      · refine ⟨rd₀, ?_, hmem⟩
        rw [mapGet_mapSet_ne (fun hh => hr hh.symm)]
        exact hrd₀

theorem i1fwd_create {s s' : ServerActorState} {hid rid : IdType} {isPub : Bool}
    (hfresh : rid ∉ mapKeys s.rooms) (h : create_room s hid isPub rid = some s')
    (hf : I1fwd s) : I1fwd s' := by
  simp only [create_room] at h
  split at h
  · exact absurd h (by simp)
  · rename_i host hhost
    simp only [Option.some.injEq] at h
    subst h
    intro pid u r hget hroom
    by_cases hp : pid = hid
    · subst hp
      rw [mapGet_mapSet_self] at hget
      simp only [Option.some.injEq] at hget
      subst hget
      simp only at hroom
      have hr : r = rid := by
        simp only [Option.some.injEq] at hroom
        exact hroom.symm
      subst hr
      exact ⟨_, mapGet_mapSet_self, by simp⟩
    · rw [mapGet_mapSet_ne (fun hh => hp hh.symm)] at hget
      rcases hf pid u r hget hroom with ⟨rd, hrd, hmem⟩
      have hner : r ≠ rid := fun hh => hfresh (hh ▸ mapGet_mem_mapKeys hrd)
      refine ⟨rd, ?_, hmem⟩
      rw [mapGet_mapSet_ne (fun hh => hner hh.symm)]
      exact hrd

/-- The converse half of I1: every member id of every room identifies a
registered player whose `room` field is that room. -/
def I1conv (s : ServerActorState) : Prop :=
  ∀ rid rd pid, mapGet s.rooms rid = some rd → pid ∈ rd.players →
    ∃ u, mapGet s.players pid = some u ∧ u.room = some rid

/-- Full I1: both halves. -/
def I1full (s : ServerActorState) : Prop := I1fwd s ∧ I1conv s

theorem mapGet_mapRemove_self {α : Type} {m : List (IdType × α)} {k : IdType} :
    mapGet (mapRemove m k) k = none := by
  induction m with
  | nil => rfl
  | cons e rest ih =>
      obtain ⟨k0, v0⟩ := e
      simp only [mapRemove, List.filter_cons] at ih ⊢
      by_cases h0 : k0 = k
      · rw [if_neg (by simp [h0])]
        exact ih
      · rw [if_pos (by simp [h0])]
        simp only [mapGet]
        rw [if_neg h0]
        exact ih

theorem mapGet_mapRemove_ne {α : Type} {m : List (IdType × α)} {k k' : IdType}
    (h : k' ≠ k) : mapGet (mapRemove m k) k' = mapGet m k' := by
  induction m with
  | nil => rfl
  | cons e rest ih =>
      obtain ⟨k0, v0⟩ := e
      simp only [mapRemove, List.filter_cons] at ih ⊢
      by_cases h0 : k0 = k
      · rw [if_neg (by simp [h0]), ih]
        simp only [mapGet]
        rw [if_neg (by rw [h0]; exact fun hh => h hh.symm)]
      · rw [if_pos (by simp [h0])]
        simp only [mapGet]
        by_cases h1 : k0 = k'
        · rw [if_pos h1, if_pos h1]
        · rw [if_neg h1, if_neg h1, ih]

theorem mapGet_mapSet_proj {α β : Type} {m : List (IdType × α)} {k : IdType} {v u : α}
    {f : α → β} (hk : mapGet m k = some u) (hf : f v = f u) :
    ∀ q, (mapGet (mapSet m k v) q).map f = (mapGet m q).map f := by
  intro q
  by_cases hq : q = k
  · subst hq
    rw [mapGet_mapSet_self, hk]
    simp [hf]
  · rw [mapGet_mapSet_ne (fun hh => hq hh.symm)]

/-- I1 only sees the `room` field of player records and the `players` field
of room records: two states agreeing on those projections (registries looked
up pointwise) satisfy I1 together. -/
theorem i1_frame {s s' : ServerActorState}
    (hP : ∀ q, (mapGet s'.players q).map (fun u => u.room) =
      (mapGet s.players q).map (fun u => u.room))
    (hR : ∀ r, (mapGet s'.rooms r).map (fun rd => rd.players) =
      (mapGet s.rooms r).map (fun rd => rd.players))
    (h1 : I1full s) : I1full s' := by
  constructor
  · intro pid u rid hu hroom
    have hP' : (mapGet s.players pid).map (fun u => u.room) = some u.room := by
      rw [← hP pid, hu, Option.map_some']
    obtain ⟨u₀, hu₀, hr₀⟩ := Option.map_eq_some'.mp hP'
    obtain ⟨rd, hrd, hmem⟩ := h1.1 pid u₀ rid hu₀ (by rw [hr₀, hroom])
    have hR' : (mapGet s'.rooms rid).map (fun rd => rd.players) = some rd.players := by
      rw [hR rid, hrd, Option.map_some']
    obtain ⟨rd', hrd', hpl⟩ := Option.map_eq_some'.mp hR'
    exact ⟨rd', hrd', by rw [hpl]; exact hmem⟩
  · intro rid rd pid hrd hm
    have hR' : (mapGet s.rooms rid).map (fun rd => rd.players) = some rd.players := by
      rw [← hR rid, hrd, Option.map_some']
    obtain ⟨rd₀, hrd₀, hpl⟩ := Option.map_eq_some'.mp hR'
    obtain ⟨u₀, hu₀, hroom₀⟩ := h1.2 rid rd₀ pid hrd₀ (by rw [hpl]; exact hm)
    have hP' : (mapGet s'.players pid).map (fun u => u.room) = some u₀.room := by
      rw [hP pid, hu₀, Option.map_some']
    obtain ⟨u, hu, hr⟩ := Option.map_eq_some'.mp hP'
    exact ⟨u, hu, by rw [hr]; exact hroom₀⟩

theorem setMembersInGame_rooms (ev : OutEvent) :
    ∀ (l : List IdType) (ps : List (IdType × UserData)) (q : IdType),
      (mapGet (setMembersInGame ev l ps).1 q).map (fun u => u.room) =
        (mapGet ps q).map (fun u => u.room) := by
  intro l
  induction l with
  | nil => intro ps q; rfl
  | cons pid rest ih =>
      intro ps q
      simp only [setMembersInGame]
      split
      · exact ih ps q
      · rename_i u hp
        exact (ih _ q).trans
          (mapGet_mapSet_proj (v := { u with in_game := true }) hp rfl q)

/-- I1 after removing the leaver from an emptied room and deleting the room. -/
theorem i1_after_room_removal {s : ServerActorState} {pid room_id : IdType}
    {player player' : UserData} {room : RoomData} {B A : List IdType}
    (hplayer : mapGet s.players pid = some player)
    (hroomf : player.room = some room_id)
    (hget : mapGet s.rooms room_id = some room)
    (hp' : player'.room = none)
    (hempty : setRemove room.players pid = [])
    (h1 : I1full s) :
    I1full ⟨mapSet s.players pid player', mapRemove s.rooms room_id, B, A⟩ := by
  constructor
  · intro q u r hq hr
    by_cases hqp : q = pid
    · subst hqp
      rw [mapGet_mapSet_self] at hq
      rw [← Option.some_inj.mp hq, hp'] at hr
      exact absurd hr (by simp)
    · rw [mapGet_mapSet_ne (fun hh => hqp hh.symm)] at hq
      obtain ⟨rd₀, hrd₀, hqm⟩ := h1.1 q u r hq hr
      by_cases hrr : r = room_id
      · subst hrr
        have he : rd₀ = room := Option.some_inj.mp (hrd₀.symm.trans hget)
        subst he
        have hmem : q ∈ setRemove rd₀.players pid := mem_setRemove.2 ⟨hqm, hqp⟩
        rw [hempty] at hmem
        exact absurd hmem (by simp)
      · exact ⟨rd₀, by rw [mapGet_mapRemove_ne hrr]; exact hrd₀, hqm⟩
  · intro r rd q hr hq
    by_cases hrr : r = room_id
    · subst hrr
      rw [mapGet_mapRemove_self] at hr
      exact absurd hr (by simp)
    · rw [mapGet_mapRemove_ne hrr] at hr
      obtain ⟨u, hu, huroom⟩ := h1.2 r rd q hr hq
      by_cases hqp : q = pid
      · subst hqp
        rw [Option.some_inj.mp (hu.symm.trans hplayer), hroomf] at huroom
        exact absurd (Option.some_inj.mp huroom).symm hrr
      · exact ⟨u, by rw [mapGet_mapSet_ne (fun hh => hqp hh.symm)]; exact hu, huroom⟩

/-- I1 after removing the leaver from a room that keeps other members. -/
theorem i1_after_removal {s : ServerActorState} {pid room_id : IdType}
    {player player' : UserData} {room room' : RoomData} {B A : List IdType}
    (hplayer : mapGet s.players pid = some player)
    (hroomf : player.room = some room_id)
    (hget : mapGet s.rooms room_id = some room)
    (hp' : player'.room = none)
    (hr' : room'.players = setRemove room.players pid)
    (h1 : I1full s) :
    I1full ⟨mapSet s.players pid player', mapSet s.rooms room_id room', B, A⟩ := by
  constructor
  · intro q u r hq hr
    by_cases hqp : q = pid
    · subst hqp
      rw [mapGet_mapSet_self] at hq
      rw [← Option.some_inj.mp hq, hp'] at hr
      exact absurd hr (by simp)
    · rw [mapGet_mapSet_ne (fun hh => hqp hh.symm)] at hq
      obtain ⟨rd₀, hrd₀, hqm⟩ := h1.1 q u r hq hr
      by_cases hrr : r = room_id
      · subst hrr
        have he : rd₀ = room := Option.some_inj.mp (hrd₀.symm.trans hget)
        subst he
        refine ⟨room', mapGet_mapSet_self, ?_⟩
        rw [hr']
        exact mem_setRemove.2 ⟨hqm, hqp⟩
      · exact ⟨rd₀, by rw [mapGet_mapSet_ne (fun hh => hrr hh.symm)]; exact hrd₀, hqm⟩
  · intro r rd q hr hq
    by_cases hrr : r = room_id
    · subst hrr
      rw [mapGet_mapSet_self] at hr
      rw [← Option.some_inj.mp hr, hr'] at hq
      obtain ⟨hqm, hqp⟩ := mem_setRemove.1 hq
      obtain ⟨u, hu, huroom⟩ := h1.2 r room q hget hqm
      exact ⟨u, by rw [mapGet_mapSet_ne (fun hh => hqp hh.symm)]; exact hu, huroom⟩
    · rw [mapGet_mapSet_ne (fun hh => hrr hh.symm)] at hr
      obtain ⟨u, hu, huroom⟩ := h1.2 r rd q hr hq
      by_cases hqp : q = pid
      · subst hqp
        rw [Option.some_inj.mp (hu.symm.trans hplayer), hroomf] at huroom
        exact absurd (Option.some_inj.mp huroom).symm hrr
      · exact ⟨u, by rw [mapGet_mapSet_ne (fun hh => hqp hh.symm)]; exact hu, huroom⟩

/-- The leaver's record after `leave_room_if_any`: room and host flag cleared. -/
def leftPlayer (player : UserData) : UserData :=
  { player with room := none, obj := { player.obj with is_host := false } }

/-- The room record after `leave_room_if_any` removes the leaver. -/
def leftRoom (room : RoomData) (pid : IdType) (ig : Bool) : RoomData :=
  { state := room.state, players := setRemove room.players pid,
    in_game_count := if ig = true then room.in_game_count - 1 else room.in_game_count,
    start_countdown_handle :=
      if (setRemove room.players pid).length < MIN_PLAYERS_PER_ROOM then false
      else room.start_countdown_handle }

/-- `leave_room_if_any` preserves full I1. -/
theorem i1_leave {s s' : ServerActorState} {pid : IdType} {sends : Sends}
    (h : leave_room_if_any s pid = some (s', sends)) (h1 : I1full s) : I1full s' := by
  simp only [leave_room_if_any] at h
  split at h
  · simp only [Option.some.injEq, Prod.mk.injEq] at h
    exact h.1 ▸ h1
  · rename_i player hplayer
    split at h
    · simp only [Option.some.injEq, Prod.mk.injEq] at h
      exact h.1 ▸ h1
    · rename_i room_id hroomf
      split at h
      · exact absurd h (by simp)
      · rename_i room hget
        split at h
        · rename_i hempty
          simp only [Option.some.injEq, Prod.mk.injEq] at h
          obtain ⟨h1', _⟩ := h
          subst h1'
          exact i1_after_room_removal hplayer hroomf hget rfl hempty h1
        · rename_i first rest_ hne
          split at h
          · split at h
            · exact absurd h (by simp)
            · rename_i p hpfirst
              simp only [Option.some.injEq, Prod.mk.injEq] at h
              obtain ⟨h1', _⟩ := h
              subst h1'
              have hmid : I1full ⟨mapSet s.players pid (leftPlayer player),
                  mapSet s.rooms room_id (leftRoom room pid player.in_game), [], []⟩ :=
                i1_after_removal hplayer hroomf hget rfl rfl h1
              refine i1_frame ?_ ?_ hmid
              · exact mapGet_mapSet_proj (f := fun u => u.room)
                  (v := { p with obj := { p.obj with is_host := true } }) hpfirst rfl
              · intro r
                rfl
          · simp only [Option.some.injEq, Prod.mk.injEq] at h
            obtain ⟨h1', _⟩ := h
            subst h1'
            exact i1_after_removal hplayer hroomf hget rfl rfl h1

/-- After `leave_room_if_any`, the leaver's own `room` field is clear. -/
theorem leave_clears_room {s s' : ServerActorState} {pid : IdType} {sends : Sends}
    (h : leave_room_if_any s pid = some (s', sends)) :
    ∀ u, mapGet s'.players pid = some u → u.room = none := by
  simp only [leave_room_if_any] at h
  split at h
  · rename_i hmiss
    simp only [Option.some.injEq, Prod.mk.injEq] at h
    obtain ⟨h1', _⟩ := h
    subst h1'
    intro u hu
    exact absurd (hmiss.symm.trans hu) (by simp)
  · rename_i player hplayer
    split at h
    · rename_i hnone
      simp only [Option.some.injEq, Prod.mk.injEq] at h
      obtain ⟨h1', _⟩ := h
      subst h1'
      intro u hu
      rw [← Option.some_inj.mp (hplayer.symm.trans hu)]
      exact hnone
    · rename_i room_id hroomf
      split at h
      · exact absurd h (by simp)
      · rename_i room hget
        split at h
        · rename_i hempty
          simp only [Option.some.injEq, Prod.mk.injEq] at h
          obtain ⟨h1', _⟩ := h
          subst h1'
          intro u hu
          simp only [remove_room] at hu
          rw [mapGet_mapSet_self] at hu
          rw [← Option.some_inj.mp hu]
        · rename_i first rest_ hne
          split at h
          · split at h
            · exact absurd h (by simp)
            · rename_i p hpfirst
              simp only [Option.some.injEq, Prod.mk.injEq] at h
              obtain ⟨h1', _⟩ := h
              subst h1'
              intro u hu
              have hfmem : first ∈ setRemove room.players pid := by
                rw [hne]
                exact List.mem_cons_self _ _
              have hfne : first ≠ pid := (mem_setRemove.1 hfmem).2
              rw [mapGet_mapSet_ne hfne, mapGet_mapSet_self] at hu
              rw [← Option.some_inj.mp hu]
          · simp only [Option.some.injEq, Prod.mk.injEq] at h
            obtain ⟨h1', _⟩ := h
            subst h1'
            intro u hu
            rw [mapGet_mapSet_self] at hu
            rw [← Option.some_inj.mp hu]

/-- The straggler-kick loop preserves full I1. -/
theorem i1_leaveMany : ∀ {l : List IdType} {s s' : ServerActorState} {sends : Sends},
    leaveMany s l = some (s', sends) → I1full s → I1full s' := by
  intro l
  induction l with
  | nil =>
      intro s s' sends h h1
      simp only [leaveMany, Option.some.injEq, Prod.mk.injEq] at h
      exact h.1 ▸ h1
  | cons pid rest ih =>
      intro s s' sends h h1
      simp only [leaveMany] at h
      split at h
      · exact absurd h (by simp)
      · rename_i s₁ sends₁ heq
        split at h
        · exact absurd h (by simp)
        · rename_i s₂ sends₂ heq'
          simp only [Option.some.injEq, Prod.mk.injEq] at h
          exact h.1 ▸ ih heq' (i1_leave heq h1)

theorem mapSet_mapSet {α : Type} {m : List (IdType × α)} {k : IdType} {v1 v2 : α} :
    mapSet (mapSet m k v1) k v2 = mapSet m k v2 := by
  induction m with
  | nil => simp [mapSet]
  | cons e rest ih =>
      obtain ⟨k0, v0⟩ := e
      by_cases h : k0 = k
      · subst h
        simp [mapSet]
      · simp [mapSet, h, ih]

/-- `leave_room_if_any` introduces no new room key. -/
theorem leave_rooms_keys {s s' : ServerActorState} {pid : IdType} {sends : Sends}
    (h : leave_room_if_any s pid = some (s', sends)) :
    ∀ k, k ∈ mapKeys s'.rooms → k ∈ mapKeys s.rooms := by
  simp only [leave_room_if_any] at h
  split at h
  · simp only [Option.some.injEq, Prod.mk.injEq] at h
    exact h.1 ▸ fun k hk => hk
  · split at h
    · simp only [Option.some.injEq, Prod.mk.injEq] at h
      exact h.1 ▸ fun k hk => hk
    · rename_i room_id hroomf
      split at h
      · exact absurd h (by simp)
      · rename_i room hget
        split at h
        · simp only [Option.some.injEq, Prod.mk.injEq] at h
          obtain ⟨h1', _⟩ := h
          subst h1'
          intro k hk
          exact (mem_mapKeys_mapRemove.1 hk).1
        · rename_i first rest_ hne
          have hrk : room_id ∈ mapKeys s.rooms := mapGet_mem_mapKeys hget
          split at h
          · split at h
            · exact absurd h (by simp)
            · simp only [Option.some.injEq, Prod.mk.injEq] at h
              obtain ⟨h1', _⟩ := h
              subst h1'
              intro k hk
              rcases mem_mapKeys_mapSet.1 hk with hk' | hk'
              · exact hk'
              · exact hk' ▸ hrk
          · simp only [Option.some.injEq, Prod.mk.injEq] at h
            obtain ⟨h1', _⟩ := h
            subst h1'
            intro k hk
            rcases mem_mapKeys_mapSet.1 hk with hk' | hk'
            · exact hk'
            · exact hk' ▸ hrk

/-- `RegisterSession` preserves full I1; a fresh registration needs the
rejection-sampling postcondition that the new id is unused. -/
theorem i1_register {s s' : ServerActorState} {idOpt : Option IdType} {obj : LoginData}
    {freshId rid : IdType}
    (hfresh : idOpt = none → freshId ∉ mapKeys s.players)
    (h : handleRegisterSession s idOpt obj freshId = some (s', rid))
    (h1 : I1full s) : I1full s' := by
  simp only [handleRegisterSession] at h
  split at h
  · rename_i id
    split at h
    · exact absurd h (by simp)
    · rename_i player hplayer
      split at h
      · simp only [Option.some.injEq, Prod.mk.injEq] at h
        obtain ⟨h1', _⟩ := h
        subst h1'
        refine i1_frame ?_ ?_ h1
        · exact mapGet_mapSet_proj (f := fun u => u.room)
            (v := { player with obj :=
              { player.obj with username := obj.username, cosmetics := obj.cosmetics } })
            hplayer rfl
        · intro r
          rfl
      · simp only [Option.some.injEq, Prod.mk.injEq] at h
        exact h.1 ▸ h1
  · simp only [Option.some.injEq, Prod.mk.injEq] at h
    obtain ⟨h1', _⟩ := h
    subst h1'
    constructor
    · intro q u r hq hr
      by_cases hqf : q = freshId
      · subst hqf
        rw [mapGet_mapSet_self] at hq
        rw [← Option.some_inj.mp hq] at hr
        exact absurd hr (by simp)
      · rw [mapGet_mapSet_ne (fun hh => hqf hh.symm)] at hq
        exact h1.1 q u r hq hr
    · intro r rd q hr hq
      obtain ⟨u, hu, huroom⟩ := h1.2 r rd q hr hq
      by_cases hqf : q = freshId
      · subst hqf
        exact absurd (mapGet_mem_mapKeys hu) (hfresh rfl)
      · exact ⟨u, by rw [mapGet_mapSet_ne (fun hh => hqf hh.symm)]; exact hu, huroom⟩

/-- `EditCosmetics` preserves full I1. -/
theorem i1_edit {s s' : ServerActorState} {id : IdType} {obj : PlayerCosmetics}
    {sends : Sends} (h : handleEditCosmetics s id obj = some (s', sends))
    (h1 : I1full s) : I1full s' := by
  simp only [handleEditCosmetics] at h
  split at h
  · exact absurd h (by simp)
  · rename_i player hplayer
    split at h
    · simp only [Option.some.injEq, Prod.mk.injEq] at h
      exact h.1 ▸ h1
    · split at h
      · simp only [Option.some.injEq, Prod.mk.injEq] at h
        obtain ⟨h1', _⟩ := h
        subst h1'
        refine i1_frame ?_ ?_ h1
        · exact mapGet_mapSet_proj (f := fun u => u.room)
            (v := { player with obj := { player.obj with cosmetics := obj } }) hplayer rfl
        · intro r
          rfl
      · split at h
        · exact absurd h (by simp)
        · simp only [Option.some.injEq, Prod.mk.injEq] at h
          obtain ⟨h1', _⟩ := h
          subst h1'
          refine i1_frame ?_ ?_ h1
          · exact mapGet_mapSet_proj (f := fun u => u.room)
              (v := { player with obj := { player.obj with cosmetics := obj } }) hplayer rfl
          · intro r
            rfl

/-- `GameEndRequest` preserves full I1. -/
theorem i1_gameEnd {s s' : ServerActorState} {id : IdType}
    {rep : Option (List PlayerObject)} (h : handleGameEnd s id = some (s', rep))
    (h1 : I1full s) : I1full s' := by
  simp only [handleGameEnd] at h
  split at h
  · exact absurd h (by simp)
  · rename_i player hplayer
    split at h
    · simp only [Option.some.injEq, Prod.mk.injEq] at h
      exact h.1 ▸ h1
    · rename_i room_id hroomf
      split at h
      · simp only [Option.some.injEq, Prod.mk.injEq] at h
        exact h.1 ▸ h1
      · rename_i room hget
        split at h
        · simp only [Option.some.injEq, Prod.mk.injEq] at h
          exact h.1 ▸ h1
        · split at h
          · exact absurd h (by simp)
          · simp only [Option.some.injEq, Prod.mk.injEq] at h
            obtain ⟨h1', _⟩ := h
            subst h1'
            refine i1_frame ?_ ?_ h1
            · exact mapGet_mapSet_proj (f := fun u => u.room)
                (v := { player with in_game := false }) hplayer rfl
            · exact mapGet_mapSet_proj (f := fun rd => rd.players)
                (v := { room with state := .Matchmaking, in_game_count := room.in_game_count - 1 }) hget rfl

/-- `SendRelayMex` preserves full I1 (it never mutates state). -/
theorem i1_relay {s s' : ServerActorState} {id : IdType} {data : List Char}
    {sends : Sends} (h : handleSendRelayMex s id data = some (s', sends))
    (h1 : I1full s) : I1full s' := by
  simp only [handleSendRelayMex] at h
  split at h
  · simp only [Option.some.injEq, Prod.mk.injEq] at h
    exact h.1 ▸ h1
  · split at h
    · exact absurd h (by simp)
    · split at h
      · simp only [Option.some.injEq, Prod.mk.injEq] at h
        exact h.1 ▸ h1
      · simp only [Option.some.injEq, Prod.mk.injEq] at h
        exact h.1 ▸ h1

/-- `Disconnect` preserves full I1: the leaver's record is clear of any room
when it is dropped. -/
theorem i1_disconnect {s s' : ServerActorState} {id : IdType} {sends : Sends}
    (h : handleDisconnect s id = some (s', sends)) (h1 : I1full s) : I1full s' := by
  simp only [handleDisconnect] at h
  split at h
  · exact absurd h (by simp)
  · rename_i s₁ sends₁ heq
    have h1₁ := i1_leave heq h1
    have hclear := leave_clears_room heq
    simp only [Option.some.injEq, Prod.mk.injEq] at h
    obtain ⟨h1', _⟩ := h
    subst h1'
    constructor
    · intro q u r hq hr
      by_cases hqi : q = id
      · subst hqi
        rw [mapGet_mapRemove_self] at hq
        exact absurd hq (by simp)
      · rw [mapGet_mapRemove_ne hqi] at hq
        exact h1₁.1 q u r hq hr
    · intro r rd q hr hq
      obtain ⟨u, hu, huroom⟩ := h1₁.2 r rd q hr hq
      by_cases hqi : q = id
      · subst hqi
        rw [hclear u hu] at huroom
        exact absurd huroom (by simp)
      · exact ⟨u, by rw [mapGet_mapRemove_ne hqi]; exact hu, huroom⟩

/-- `create_room` preserves full I1 when the sampled room id is unused and
the host carries no stale room back-reference. -/
theorem i1_create_full {s s' : ServerActorState} {hid rid : IdType} {isPub : Bool}
    (hfresh : rid ∉ mapKeys s.rooms)
    (hnoroom : ∀ u, mapGet s.players hid = some u → u.room = none)
    (h : create_room s hid isPub rid = some s') (h1 : I1full s) : I1full s' := by
  refine ⟨i1fwd_create hfresh h h1.1, ?_⟩
  simp only [create_room] at h
  split at h
  · exact absurd h (by simp)
  · rename_i host hhost
    simp only [Option.some.injEq] at h
    subst h
    intro r rd q hr hq
    by_cases hrr : r = rid
    · subst hrr
      rw [mapGet_mapSet_self] at hr
      rw [← Option.some_inj.mp hr] at hq
      have hqh : q = hid := by simpa using hq
      subst hqh
      exact ⟨_, mapGet_mapSet_self, rfl⟩
    · rw [mapGet_mapSet_ne (fun hh => hrr hh.symm)] at hr
      obtain ⟨u, hu, huroom⟩ := h1.2 r rd q hr hq
      by_cases hqh : q = hid
      · subst hqh
        rw [hnoroom u hu] at huroom
        exact absurd huroom (by simp)
      · exact ⟨u, by rw [mapGet_mapSet_ne (fun hh => hqh hh.symm)]; exact hu, huroom⟩

/-- `CreateRoom` preserves full I1 when the sampled room id is unused. -/
theorem i1_createRoomHandler {s s' : ServerActorState} {id freshId rid : IdType}
    {obj : PlayerObject} (hfresh : freshId ∉ mapKeys s.rooms)
    (h : handleCreateRoom s id freshId = some (s', rid, obj)) (h1 : I1full s) :
    I1full s' := by
  simp only [handleCreateRoom] at h
  split at h
  · exact absurd h (by simp)
  · rename_i s₁ sends₁ heq
    have h1₁ := i1_leave heq h1
    have hclear := leave_clears_room heq
    split at h
    · exact absurd h (by simp)
    · rename_i s₂ heq₂
      split at h
      · exact absurd h (by simp)
      · rename_i player hplayer
        simp only [Option.some.injEq, Prod.mk.injEq] at h
        obtain ⟨h1', _⟩ := h
        subst h1'
        refine i1_create_full ?_ hclear heq₂ h1₁
        intro hmem
        exact hfresh (leave_rooms_keys heq _ hmem)

/-- `JoinRoom` preserves full I1: the handler both inserts the joiner into
the member set and sets the back-reference within the same step. -/
theorem i1_join {s s' : ServerActorState} {my rid : IdType} {rep : JoinRoomResult}
    {sends : Sends} (h : handleJoinRoom s my rid = some (s', rep, sends))
    (h1 : I1full s) : I1full s' := by
  simp only [handleJoinRoom] at h
  split at h
  · exact absurd h (by simp)
  · rename_i s₁ sends₁ heq
    have h1₁ : I1full s₁ := i1_leave heq h1
    have hclear := leave_clears_room heq
    split at h
    · simp only [Option.some.injEq, Prod.mk.injEq] at h
      exact h.1 ▸ h1₁
    · rename_i rd hrd
      split at h
      · simp only [Option.some.injEq, Prod.mk.injEq] at h
        exact h.1 ▸ h1₁
      · split at h
        · simp only [Option.some.injEq, Prod.mk.injEq] at h
          exact h.1 ▸ h1₁
        · split at h
          · exact absurd h (by simp)
          · rename_i user huser
            split at h
            · exact absurd h (by simp)
            · rename_i objs hobjs
              simp only [Option.some.injEq, Prod.mk.injEq] at h
              obtain ⟨h1', _⟩ := h
              subst h1'
              constructor
              · intro q u r hq hr
                by_cases hqm : q = my
                · subst hqm
                  rw [mapGet_mapSet_self] at hq
                  rw [← Option.some_inj.mp hq] at hr
                  have hrr : rid = r := Option.some_inj.mp hr
                  subst hrr
                  refine ⟨_, mapGet_mapSet_self, ?_⟩
                  split
                  · exact mem_setInsert.2 (Or.inr rfl)
                  · exact mem_setInsert.2 (Or.inr rfl)
                · rw [mapGet_mapSet_ne (fun hh => hqm hh.symm)] at hq
                  obtain ⟨rd₀, hrd₀, hqmem⟩ := h1₁.1 q u r hq hr
                  by_cases hrr : r = rid
                  · subst hrr
                    have he : rd₀ = rd := Option.some_inj.mp (hrd₀.symm.trans hrd)
                    subst he
                    refine ⟨_, mapGet_mapSet_self, ?_⟩
                    split
                    · exact mem_setInsert.2 (Or.inl hqmem)
                    · exact mem_setInsert.2 (Or.inl hqmem)
                  · exact ⟨rd₀,
                      by rw [mapGet_mapSet_ne (fun hh => hrr hh.symm)]; exact hrd₀, hqmem⟩
              · intro r rd' q hr hq
                by_cases hrr : r = rid
                · subst hrr
                  rw [mapGet_mapSet_self] at hr
                  rw [← Option.some_inj.mp hr] at hq
                  by_cases hqm : q = my
                  · subst hqm
                    exact ⟨{ user with room := some r }, mapGet_mapSet_self, rfl⟩
                  · have hq' : q ∈ setInsert rd.players my := by
                      split at hq
                      · exact hq
                      · exact hq
                    have hqold : q ∈ rd.players := by
                      rcases mem_setInsert.1 hq' with h' | h'
                      · exact h'
                      · exact absurd h' hqm
                    obtain ⟨u, hu, huroom⟩ := h1₁.2 r rd q hrd hqold
                    exact ⟨u,
                      by rw [mapGet_mapSet_ne (fun hh => hqm hh.symm)]; exact hu, huroom⟩
                · rw [mapGet_mapSet_ne (fun hh => hrr hh.symm)] at hr
                  obtain ⟨u, hu, huroom⟩ := h1₁.2 r rd' q hr hq
                  by_cases hqm : q = my
                  · subst hqm
                    rw [hclear u hu] at huroom
                    exact absurd huroom (by simp)
                  · exact ⟨u,
                      by rw [mapGet_mapSet_ne (fun hh => hqm hh.symm)]; exact hu, huroom⟩

/-- `StartRoom` preserves full I1: countdown/availability bookkeeping and the
in-game fan-out touch neither back-references nor member sets, and the
straggler kick goes through `leave_room_if_any`. -/
theorem i1_start {s s' : ServerActorState} {id : IdType} {ct : RoomConnectionType}
    {sends : Sends} (h : handleStartRoom s id ct = some (s', sends))
    (h1 : I1full s) : I1full s' := by
  simp only [handleStartRoom] at h
  split at h
  · simp only [Option.some.injEq, Prod.mk.injEq] at h
    exact h.1 ▸ h1
  · rename_i room_id hbind
    split at h
    · simp only [Option.some.injEq, Prod.mk.injEq] at h
      exact h.1 ▸ h1
    · rename_i room hget
      split at h
      · simp only [Option.some.injEq, Prod.mk.injEq] at h
        obtain ⟨h1', _⟩ := h
        subst h1'
        refine i1_frame ?_ ?_ h1
        · intro q
          rfl
        · intro r
          exact mapGet_mapSet_proj (f := fun rd => rd.players)
            (v := (⟨room.state, room.players, room.in_game_count, false⟩ : RoomData))
            hget rfl r
      · split at h
        · split at h
          · exact absurd h (by simp)
          · rename_i s₃ sendsK heqL
            have hmid : I1full ⟨s.players,
                mapSet (mapSet s.rooms room_id
                    (⟨room.state, room.players, room.in_game_count, false⟩ : RoomData))
                  room_id
                  (⟨RoomState.Playing, room.players, room.in_game_count, false⟩ : RoomData),
                s.pub_rooms, setRemove s.pub_rooms_available room_id⟩ := by
              refine i1_frame ?_ ?_ h1
              · intro q
                rfl
              · intro r
                simp only [mapSet_mapSet]
                exact mapGet_mapSet_proj (f := fun rd => rd.players)
                  (v := (⟨RoomState.Playing, room.players, room.in_game_count, false⟩ :
                    RoomData)) hget rfl r
            have h1₃ : I1full s₃ := i1_leaveMany heqL hmid
            split at h
            · simp only [Option.some.injEq, Prod.mk.injEq] at h
              exact h.1 ▸ h1₃
            · rename_i room₃ hroom₃
              simp only [Option.some.injEq, Prod.mk.injEq] at h
              obtain ⟨h1', _⟩ := h
              subst h1'
              refine i1_frame ?_ ?_ h1₃
              · exact fun q => setMembersInGame_rooms _ _ _ q
              · intro r
                exact mapGet_mapSet_proj (f := fun rd => rd.players)
                  (v := (⟨room₃.state, room₃.players, room₃.players.length,
                    room₃.start_countdown_handle⟩ : RoomData)) hroom₃ rfl r
        · simp only [Option.some.injEq, Prod.mk.injEq] at h
          obtain ⟨h1', _⟩ := h
          subst h1'
          refine i1_frame ?_ ?_ h1
          · exact fun q => (setMembersInGame_rooms _ _ _ q).trans rfl
          · intro r
            simp only [mapSet_mapSet]
            exact mapGet_mapSet_proj (f := fun rd => rd.players)
              (v := (⟨RoomState.Playing, room.players, room.players.length, false⟩ :
                RoomData)) hget rfl r

/-- The postcondition of each handler's rejection-sampling loop: a sampled
`freshId` is unused in the registry it is about to be inserted into. -/
def freshFor : Request → ServerActorState → Prop
  | .registerSession none _ freshId, s => freshId ∉ mapKeys s.players
  | .createRoom _ freshId, s => freshId ∉ mapKeys s.rooms
  | .findRoom _ freshId, s => freshId ∉ mapKeys s.rooms
  | _, _ => True

/-- Full I1 is preserved by every coordinator request other than `FindRoom`,
given the rejection-sampling postcondition on sampled ids. -/
theorem i1_serverStep (r : Request) (s s' : ServerActorState)
    (hnf : ∀ id freshId, r ≠ .findRoom id freshId) (hfresh : freshFor r s)
    (h : serverStep r s = some s') (h1 : I1full s) : I1full s' := by
  cases r with
  | registerSession idOpt login freshId =>
      simp only [serverStep] at h
      rcases Option.map_eq_some'.1 h with ⟨⟨s₁, rid⟩, ha, hb⟩
      cases hb
      refine i1_register ?_ ha h1
      intro hnone
      subst hnone
      exact hfresh
  | disconnect id =>
      simp only [serverStep] at h
      rcases Option.map_eq_some'.1 h with ⟨⟨s₁, sends⟩, ha, hb⟩
      cases hb
      exact i1_disconnect ha h1
  | editCosmetics id obj =>
      simp only [serverStep] at h
      rcases Option.map_eq_some'.1 h with ⟨⟨s₁, sends⟩, ha, hb⟩
      cases hb
      exact i1_edit ha h1
  | findRoom id freshId => exact absurd rfl (hnf id freshId)
  | createRoom id freshId =>
      simp only [serverStep] at h
      rcases Option.map_eq_some'.1 h with ⟨⟨s₁, rid, obj⟩, ha, hb⟩
      cases hb
      exact i1_createRoomHandler hfresh ha h1
  | joinRoom id room_id =>
      simp only [serverStep] at h
      rcases Option.map_eq_some'.1 h with ⟨⟨s₁, rep, sends⟩, ha, hb⟩
      cases hb
      exact i1_join ha h1
  | leaveRoom id =>
      simp only [serverStep] at h
      rcases Option.map_eq_some'.1 h with ⟨⟨s₁, sends⟩, ha, hb⟩
      cases hb
      exact i1_leave ha h1
  | startRoom id ct =>
      simp only [serverStep] at h
      rcases Option.map_eq_some'.1 h with ⟨⟨s₁, sends⟩, ha, hb⟩
      cases hb
      exact i1_start ha h1
  | sendRelayMex id data =>
      simp only [serverStep] at h
      rcases Option.map_eq_some'.1 h with ⟨⟨s₁, sends⟩, ha, hb⟩
      cases hb
      exact i1_relay ha h1
  | gameEndRequest id =>
      simp only [serverStep] at h
      rcases Option.map_eq_some'.1 h with ⟨⟨s₁, rep⟩, ha, hb⟩
      cases hb
      exact i1_gameEnd ha h1

/-- Eight players register; player 1 opens public room 10 via `FindRoom`,
players 2–7 join it, and player 8's `FindRoom` is placed into it as its 8th
member (so the deferred `JoinRoom` will find the room full). -/
def C1fullTrace : List Request :=
  [.registerSession none ⟨"p1", ⟨0, 0⟩⟩ 1,
   .registerSession none ⟨"p2", ⟨0, 0⟩⟩ 2,
   .registerSession none ⟨"p3", ⟨0, 0⟩⟩ 3,
   .registerSession none ⟨"p4", ⟨0, 0⟩⟩ 4,
   .registerSession none ⟨"p5", ⟨0, 0⟩⟩ 5,
   .registerSession none ⟨"p6", ⟨0, 0⟩⟩ 6,
   .registerSession none ⟨"p7", ⟨0, 0⟩⟩ 7,
   .registerSession none ⟨"p8", ⟨0, 0⟩⟩ 8,
   .findRoom 1 10,
   .joinRoom 2 10, .joinRoom 3 10, .joinRoom 4 10,
   .joinRoom 5 10, .joinRoom 6 10, .joinRoom 7 10,
   .findRoom 8 99]

/-- C1, amended: full I1 (both halves) is preserved by every coordinator
request other than `FindRoom`, assuming only the rejection-sampling
postcondition that sampled fresh ids are unused (part 1). `FindRoom` itself
preserves the forward half of I1 — no `room` back-reference can dangle —
(part 2), but not the converse half: at the moment its reply is produced, a
player placed into an existing public room is already in that room's member
set while its `room` field is still unset (the C1 counterexample). The
deferred `JoinRoom` self-notification restores full I1 when it succeeds
(part 3), but not when the `FindRoom` insertion itself filled the room to
capacity: the deferred join then replies `RoomIsFull` without ever setting
the back-reference, and I1 stays violated (part 4). -/
theorem C1_findroom_i1_amended :
    (∀ r : Request, ∀ s s' : ServerActorState,
      (∀ id freshId, r ≠ Request.findRoom id freshId) → freshFor r s →
      serverStep r s = some s' → I1full s → I1full s') ∧
    (∀ s s' : ServerActorState, ∀ my freshId : IdType, ∀ rep : FindRoomResult,
      ∀ nots : List NotifyJoinRoom, freshId ∉ mapKeys s.rooms →
      handleFindRoom s my freshId = some (s', rep, nots) → I1fwd s → I1fwd s') ∧
    (runRequests (C1trace ++ [.findRoom 2 11, .joinRoom 2 10]) emptyServer).map I1bool =
      some true ∧
    ((runRequests C1fullTrace emptyServer).bind (fun st => handleJoinRoom st 8 10)).map
      (fun out => (out.2.1, I1bool out.1)) = some (.RoomIsFull, false) := by
  refine ⟨i1_serverStep, ?_, by decide, by decide⟩
  intro s s' my freshId rep nots hfresh h hf
  simp only [handleFindRoom] at h
  split at h
  · exact absurd h (by simp)
  · rename_i s₁ ro heq
    have hf₁ : I1fwd s₁ := i1fwd_far heq hf
    split at h
    · split at h
      · exact absurd h (by simp)
      · split at h
        · exact absurd h (by simp)
        · simp only [Option.some.injEq, Prod.mk.injEq] at h
          exact h.1 ▸ hf₁
    · have hs₁ : s₁ = s := far_none_state heq
      split at h
      · exact absurd h (by simp)
      · rename_i s₂ heq₂
        have hf₂ : I1fwd s₂ :=
          i1fwd_create (by rw [hs₁]; exact hfresh) heq₂ hf₁
        split at h
        · exact absurd h (by simp)
        · split at h
          · exact absurd h (by simp)
          · simp only [Option.some.injEq, Prod.mk.injEq] at h
            exact h.1 ▸ hf₂

/-- Witness for the amended C1: part 1 instantiated at a concrete
`RegisterSession` into the empty registry, and part 2 at a concrete
`FindRoom` that creates a fresh public room from a one-player registry. -/
theorem C1_findroom_i1_amended_witness :
    I1full { players := [(1, ⟨⟨1, "a", ⟨0, 0⟩, false⟩, none, false⟩)], rooms := [],
             pub_rooms := [], pub_rooms_available := [] } ∧
    I1fwd { players := [(1, ⟨⟨1, "a", ⟨0, 0⟩, true⟩, some 10, false⟩)],
            rooms := [(10, ⟨.Matchmaking, [1], 0, false⟩)],
            pub_rooms := [10], pub_rooms_available := [10] } := by
  constructor
  · refine C1_findroom_i1_amended.1 (.registerSession none ⟨"a", ⟨0, 0⟩⟩ 1) emptyServer _
      (fun id freshId => by simp)
      (by decide : (1 : IdType) ∉ mapKeys emptyServer.players) rfl ?_
    constructor
    · intro pid u rid hget hroom
      exact absurd hget (by simp [emptyServer, mapGet])
    · intro rid rd pid hrd hm
      exact absurd hrd (by simp [emptyServer, mapGet])
  · exact C1_findroom_i1_amended.2.1
      { players := [(1, ⟨⟨1, "a", ⟨0, 0⟩, false⟩, none, false⟩)], rooms := [],
        pub_rooms := [], pub_rooms_available := [] } _ 1 10 _ _ (by decide) rfl
      (by
        intro pid u rid hget hroom
        simp only [mapGet] at hget
        split at hget
        · simp only [Option.some.injEq] at hget
          subst hget
          exact absurd hroom (by simp)
        · exact absurd hget (by simp [mapGet]))

/-! ## Broadcast characterization (C3, C7) -/

theorem mem_broadcast {room : RoomData} {players : List (IdType × UserData)}
    {ev : OutEvent} {pid : IdType} {skip : Option IdType} :
    (pid, Push.event ev) ∈ broadcast_event_room room players ev skip ↔
      pid ∈ room.players ∧ skip ≠ some pid ∧
        ∃ v, mapGet players pid = some v ∧ v.in_game = false := by
  unfold broadcast_event_room
  rw [List.mem_filterMap]
  constructor
  · rintro ⟨b, hb, hf⟩
    by_cases hskip : skip = some b
    · rw [if_pos hskip] at hf
      exact absurd hf (by simp)
    · rw [if_neg hskip] at hf
      split at hf
      · exact absurd hf (by simp)
      · rename_i v hpb
        by_cases hig : v.in_game = true
        · rw [if_pos hig] at hf
          exact absurd hf (by simp)
        · rw [if_neg hig] at hf
          simp only [Option.some.injEq, Prod.mk.injEq, and_true] at hf
          subst hf
          exact ⟨hb, hskip, v, hpb, by simpa using hig⟩
  · rintro ⟨hmem, hskip, v, hv, hig⟩
    refine ⟨pid, hmem, ?_⟩
    rw [if_neg hskip, hv]
    simp [hig]

theorem broadcast_shape {room : RoomData} {players : List (IdType × UserData)}
    {ev : OutEvent} {skip : Option IdType} :
    ∀ e ∈ broadcast_event_room room players ev skip, e.2 = Push.event ev := by
  intro e he
  unfold broadcast_event_room at he
  rw [List.mem_filterMap] at he
  obtain ⟨b, _, hf⟩ := he
  split at hf
  · exact absurd hf (by simp)
  · split at hf
    · exact absurd hf (by simp)
    · rename_i v hpb
      split at hf
      · exact absurd hf (by simp)
      · simp only [Option.some.injEq] at hf
        rw [← hf]

/-! ## C3: JoinRoom -/

/-- Two players share private room 10 and start playing; player 2 leaves
mid-game (keeping `in_game = true`); player 3 registers and opens room 20. -/
def C3trace : List Request :=
  [.registerSession none ⟨"a", ⟨0, 0⟩⟩ 1,
   .registerSession none ⟨"b", ⟨0, 0⟩⟩ 2,
   .createRoom 1 10,
   .joinRoom 2 10,
   .startRoom 1 .ServerBroadcast,
   .leaveRoom 2,
   .registerSession none ⟨"c", ⟨0, 0⟩⟩ 3,
   .createRoom 3 20]

def isJoinSuccess : JoinRoomResult → Bool
  | .Success _ => true
  | _ => false

/-- C3 counterexample: player 2 (who left a running game, so its `in_game`
flag is still set) joins room 20. The reply is `Success`, but
`EventPlayerJoined` is NOT delivered to the joiner (the broadcast skips
in-game members), while member 3 does receive it — contradicting "broadcast
to the room (the joiner included)". -/
theorem C3_counterexample :
    ((runRequests C3trace emptyServer).bind (fun s => handleJoinRoom s 2 20)).map
      (fun out => (isJoinSuccess out.2.1,
        out.2.2.any (fun e => e.1 == 2),
        out.2.2.any (fun e => e.1 == 3))) = some (true, false, true) := by
  decide

/-- C3, amended: `JoinRoom` behaves as claimed, except that
`EventPlayerJoined` is delivered to exactly those post-join members whose
`in_game` flag is false (so the joiner is included only when not flagged
in-game). Errors leave the registries as `leave_room_if_any` left them. -/
theorem C3_joinroom_amended (s : ServerActorState) (my rid : IdType)
    (out : ServerActorState × JoinRoomResult × Sends)
    (h : handleJoinRoom s my rid = some out) :
    ∃ s₁ sends₁, leave_room_if_any s my = some (s₁, sends₁) ∧
      ((mapGet s₁.rooms rid = none ∧ out = (s₁, .RoomNotFound, sends₁)) ∨
       (∃ rd, mapGet s₁.rooms rid = some rd ∧ rd.state ≠ .Matchmaking ∧
          out = (s₁, .AlreadyPlaying, sends₁)) ∨
       (∃ rd, mapGet s₁.rooms rid = some rd ∧ rd.state = .Matchmaking ∧
          MAX_PLAYERS_PER_ROOM ≤ rd.players.length ∧ out = (s₁, .RoomIsFull, sends₁)) ∨
       (∃ rd u objs bc, mapGet s₁.rooms rid = some rd ∧ rd.state = .Matchmaking ∧
          rd.players.length < MAX_PLAYERS_PER_ROOM ∧ mapGet s₁.players my = some u ∧
          (∃ rd', mapGet out.1.rooms rid = some rd' ∧
            rd'.players = setInsert rd.players my) ∧
          mapGet out.1.players my = some { u with room := some rid } ∧
          collectPlayerObjs (mapSet s₁.players my { u with room := some rid })
            (setInsert rd.players my) = some objs ∧
          out.2.1 = .Success objs ∧
          out.2.2 = sends₁ ++ bc ∧
          (∀ e ∈ bc, e.2 = Push.event (.EventPlayerJoined u.obj)) ∧
          (∀ pid : IdType, (pid, Push.event (.EventPlayerJoined u.obj)) ∈ bc ↔
            pid ∈ setInsert rd.players my ∧
              ∃ v, mapGet (mapSet s₁.players my { u with room := some rid }) pid = some v ∧
                v.in_game = false))) := by
  simp only [handleJoinRoom] at h
  split at h
  · exact absurd h (by simp)
  · rename_i s₁ sends₁ heq
    refine ⟨s₁, sends₁, heq, ?_⟩
    split at h
    · rename_i hnone
      simp only [Option.some.injEq] at h
      exact Or.inl ⟨hnone, h.symm⟩
    · rename_i rd hrd
      split at h
      · rename_i hstate
        simp only [Option.some.injEq] at h
        exact Or.inr (Or.inl ⟨rd, hrd, hstate, h.symm⟩)
      · rename_i hstate
        have hmm : rd.state = .Matchmaking := not_not.mp hstate
        split at h
        · rename_i hfull
          simp only [Option.some.injEq] at h
          exact Or.inr (Or.inr (Or.inl ⟨rd, hrd, hmm, hfull, h.symm⟩))
        · rename_i hfull
          have hlt : rd.players.length < MAX_PLAYERS_PER_ROOM := Nat.not_le.mp hfull
          split at h
          · exact absurd h (by simp)
          · rename_i user huser
            split at h
            · exact absurd h (by simp)
            · rename_i objs hobjs
              simp only [Option.some.injEq] at h
              subst h
              refine Or.inr (Or.inr (Or.inr ⟨rd, user, objs,
                broadcast_event_room { rd with players := setInsert rd.players my }
                  (mapSet s₁.players my { user with room := some rid })
                  (.EventPlayerJoined user.obj) none,
                hrd, hmm, hlt, huser, ?_, ?_, ?_, ?_, ?_, ?_, ?_⟩))
              · refine ⟨_, mapGet_mapSet_self, ?_⟩
                split <;> rfl
              · exact mapGet_mapSet_self
              · rw [← hobjs]
                congr 1
                split <;> rfl
              · rfl
              · rfl
              · exact broadcast_shape
              · intro pid
                rw [mem_broadcast]
                constructor
                · rintro ⟨hm, _, hv⟩
                  exact ⟨hm, hv⟩
                · rintro ⟨hm, hv⟩
                  exact ⟨hm, by simp, hv⟩

/-- A one-player registry with no rooms, for the C3 witness. -/
def C3wState : ServerActorState :=
  { players := [(5, ⟨⟨5, "w", ⟨0, 0⟩, false⟩, none, false⟩)], rooms := [],
    pub_rooms := [], pub_rooms_available := [] }

/-- Witness for the amended C3: joining the nonexistent room 77. -/
theorem C3_joinroom_amended_witness : mapGet C3wState.rooms 77 = none := by
  rcases C3_joinroom_amended C3wState 5 77 (C3wState, .RoomNotFound, []) rfl with
    ⟨s₁, sends₁, hleave, hcase⟩
  have h2 : (some (C3wState, ([] : Sends)) : Option (ServerActorState × Sends)) =
      some (s₁, sends₁) := (rfl : leave_room_if_any C3wState 5 = some (C3wState, [])).symm.trans hleave
  simp only [Option.some.injEq, Prod.mk.injEq] at h2
  obtain ⟨hs, _⟩ := h2
  subst hs
  rcases hcase with ⟨hnone, _⟩ | ⟨rd, hrd, _⟩ | ⟨rd, hrd, _⟩ | ⟨rd, u, objs, bc, hrd, _⟩
  · exact hnone
  · exact absurd hrd (by simp [C3wState, mapGet])
  · exact absurd hrd (by simp [C3wState, mapGet])
  · exact absurd hrd (by simp [C3wState, mapGet])

/-! ## C7: EditCosmetics -/

/-- Players 1 and 2 share private room 10 and start playing; player 1 then
reports game end, so the room is back in `Matchmaking` with player 2 still
flagged `in_game`. -/
def C7trace : List Request :=
  [.registerSession none ⟨"a", ⟨0, 0⟩⟩ 1,
   .registerSession none ⟨"b", ⟨0, 0⟩⟩ 2,
   .createRoom 1 10,
   .joinRoom 2 10,
   .startRoom 1 .ServerBroadcast,
   .gameEndRequest 1]

/-- C7 counterexample: player 1 changes cosmetics while room-mate 2 has
`in_game = true`. The update happens (player 1's cosmetics become `⟨1,1⟩`),
player 2 is still a member of room 10, yet the delivery list is empty —
contradicting "delivered to every other member of that room". -/
theorem C7_counterexample :
    ((runRequests C7trace emptyServer).bind (fun s => handleEditCosmetics s 1 ⟨1, 1⟩)).map
      (fun out => (out.2, (mapGet out.1.players 1).map (fun u => u.obj.cosmetics),
        (mapGet out.1.players 2).map (fun u => u.room))) =
      some ([], some ⟨1, 1⟩, some (some 10)) := by
  decide

/-- The record update `player.obj.cosmetics = msg.obj` performed by
`Handler<EditCosmetics>`. -/
def withCosmetics (player : UserData) (obj : PlayerCosmetics) : UserData :=
  { player with obj := { player.obj with cosmetics := obj } }

/-- C7, amended: a no-op on equal cosmetics; otherwise the player's cosmetics
are updated and, when the player is in a room, `EventPlayerAvatarChange` is
delivered to exactly those other members of the room whose `in_game` flag is
false, and to no one else. -/
theorem C7_editcosmetics_amended (s : ServerActorState) (id : IdType)
    (obj : PlayerCosmetics) (out : ServerActorState × Sends)
    (h : handleEditCosmetics s id obj = some out) :
    ∃ player, mapGet s.players id = some player ∧
      ((player.obj.cosmetics = obj ∧ out = (s, [])) ∨
       (player.obj.cosmetics ≠ obj ∧
        mapGet out.1.players id = some (withCosmetics player obj) ∧
        (player.room = none →
          out = ({ s with players := mapSet s.players id (withCosmetics player obj) }, [])) ∧
        (∀ room_id rd, player.room = some room_id → mapGet s.rooms room_id = some rd →
          out.1 = { s with players := mapSet s.players id (withCosmetics player obj) } ∧
          (∀ e ∈ out.2, e.2 = Push.event (.EventPlayerAvatarChange player.obj.id obj)) ∧
          (∀ pid : IdType,
            (pid, Push.event (.EventPlayerAvatarChange player.obj.id obj)) ∈ out.2 ↔
              pid ∈ rd.players ∧ pid ≠ id ∧
                ∃ v, mapGet (mapSet s.players id (withCosmetics player obj)) pid = some v ∧
                  v.in_game = false)))) := by
  simp only [handleEditCosmetics] at h
  split at h
  · exact absurd h (by simp)
  · rename_i player hp
    refine ⟨player, hp, ?_⟩
    split at h
    · rename_i heqc
      simp only [Option.some.injEq] at h
      exact Or.inl ⟨heqc, h.symm⟩
    · rename_i hnec
      refine Or.inr ⟨hnec, ?_⟩
      split at h
      · rename_i hroom
        simp only [Option.some.injEq] at h
        subst h
        refine ⟨mapGet_mapSet_self, fun _ => rfl, ?_⟩
        intro room_id rd h1 h2
        exact absurd (hroom.symm.trans h1) (by simp)
      · rename_i room_id hroom
        split at h
        · exact absurd h (by simp)
        · rename_i rd hrd
          simp only [Option.some.injEq] at h
          subst h
          refine ⟨mapGet_mapSet_self, fun hcon => absurd (hroom.symm.trans hcon) (by simp), ?_⟩
          intro room_id' rd' h1 h2
          have hrid : room_id' = room_id := Option.some_inj.mp (hroom.symm.trans h1).symm
          subst hrid
          have hrd' : rd' = rd := Option.some_inj.mp (h2.symm.trans hrd)
          subst hrd'
          refine ⟨rfl, broadcast_shape, ?_⟩
          intro pid
          rw [mem_broadcast]
          constructor
          · rintro ⟨hm, hskip, hv⟩
            refine ⟨hm, fun hpe => hskip (by rw [hpe]), hv⟩
          · rintro ⟨hm, hne, hv⟩
            exact ⟨hm, fun hpe => hne (Option.some_inj.mp hpe).symm, hv⟩

/-- Two lobby members of room 10, for the C7 witness. -/
def C7wState : ServerActorState :=
  { players := [(5, ⟨⟨5, "w", ⟨0, 0⟩, true⟩, some 10, false⟩),
                (6, ⟨⟨6, "x", ⟨0, 0⟩, false⟩, some 10, false⟩)],
    rooms := [(10, ⟨.Matchmaking, [5, 6], 0, false⟩)],
    pub_rooms := [], pub_rooms_available := [] }

/-- Witness for the amended C7: player 5's change reaches room-mate 6. -/
theorem C7_editcosmetics_amended_witness :
    (6, Push.event (.EventPlayerAvatarChange 5 ⟨1, 1⟩)) ∈
      (broadcast_event_room ⟨.Matchmaking, [5, 6], 0, false⟩
        (mapSet C7wState.players 5 ⟨⟨5, "w", ⟨1, 1⟩, true⟩, some 10, false⟩)
        (.EventPlayerAvatarChange 5 ⟨1, 1⟩) (some 5)) := by
  obtain ⟨player, hp, hcase⟩ :=
    C7_editcosmetics_amended C7wState 5 ⟨1, 1⟩
      ({ C7wState with players := mapSet C7wState.players 5 ⟨⟨5, "w", ⟨1, 1⟩, true⟩, some 10, false⟩ },
        broadcast_event_room ⟨.Matchmaking, [5, 6], 0, false⟩
          (mapSet C7wState.players 5 ⟨⟨5, "w", ⟨1, 1⟩, true⟩, some 10, false⟩)
          (.EventPlayerAvatarChange 5 ⟨1, 1⟩) (some 5)) rfl
  have hpl : (⟨⟨5, "w", ⟨0, 0⟩, true⟩, some 10, false⟩ : UserData) = player :=
    Option.some_inj.mp ((rfl :
      mapGet C7wState.players 5 = some ⟨⟨5, "w", ⟨0, 0⟩, true⟩, some 10, false⟩).symm.trans hp)
  subst hpl
  rcases hcase with ⟨heqc, _⟩ | ⟨_, _, _, hroom⟩
  · exact absurd heqc (by decide)
  · obtain ⟨_, _, hiff⟩ := hroom 10 ⟨.Matchmaking, [5, 6], 0, false⟩ rfl rfl
    exact (hiff 6).mpr ⟨by simp, by decide, ⟨⟨6, "x", ⟨0, 0⟩, false⟩, some 10, false⟩,
      by decide, rfl⟩

/-! ## C4: SendRelayMex -/

theorem mem_relaySends {players : List (IdType × UserData)} {members : List IdType}
    {sender pid : IdType} {raw : List Char} :
    (pid, Push.relayRaw raw) ∈ members.filterMap (fun p =>
      if p = sender then none
      else
        match mapGet players p with
        | none => none
        | some q => if q.in_game then some (p, Push.relayRaw raw) else none) ↔
      pid ∈ members ∧ pid ≠ sender ∧
        ∃ v, mapGet players pid = some v ∧ v.in_game = true := by
  rw [List.mem_filterMap]
  constructor
  · rintro ⟨b, hb, hf⟩
    by_cases hbs : b = sender
    · rw [if_pos hbs] at hf
      exact absurd hf (by simp)
    · rw [if_neg hbs] at hf
      split at hf
      · exact absurd hf (by simp)
      · rename_i q hq
        by_cases hig : q.in_game = true
        · rw [if_pos hig] at hf
          simp only [Option.some.injEq, Prod.mk.injEq, and_true] at hf
          subst hf
          exact ⟨hb, hbs, q, hq, hig⟩
        · rw [if_neg hig] at hf
          exact absurd hf (by simp)
  · rintro ⟨hm, hne, v, hv, hig⟩
    refine ⟨pid, hm, ?_⟩
    rw [if_neg hne, hv]
    simp [hig]

theorem relaySends_shape {players : List (IdType × UserData)} {members : List IdType}
    {sender : IdType} {raw : List Char} :
    ∀ e ∈ members.filterMap (fun p =>
      if p = sender then none
      else
        match mapGet players p with
        | none => none
        | some q => if q.in_game then some (p, Push.relayRaw raw) else none),
      e.2 = Push.relayRaw raw := by
  intro e he
  rw [List.mem_filterMap] at he
  obtain ⟨b, _, hf⟩ := he
  split at hf
  · exact absurd hf (by simp)
  · split at hf
    · exact absurd hf (by simp)
    · rename_i q hq
      split at hf
      · simp only [Option.some.injEq] at hf
        rw [← hf]
      · exact absurd hf (by simp)

/-- C4: `SendRelayMex{sender, data}` from a registered sender never mutates
state; it is dropped entirely when `data` is empty or the sender has no
existing room; otherwise the payload `relayPrefix sender ++ data.drop 1`
(the literal prefix `\x7b"sender":"<SerId(sender)>",` followed by `data`
minus its first byte — dropping one `Char` equals dropping one byte under the
precondition that `data` starts with the ASCII byte `'\x7b'`) is delivered as
a `SendRelayMexRaw` to exactly those room members other than the sender whose
record resolves with `in_game = true`. -/
theorem C4_sendrelay (s : ServerActorState) (sender : IdType) (data : List Char)
    (u : UserData) (out : ServerActorState × Sends)
    (hu : mapGet s.players sender = some u)
    (h : handleSendRelayMex s sender data = some out) :
    out.1 = s ∧
    (data = [] → out.2 = []) ∧
    (u.room.bind (mapGet s.rooms) = none → out.2 = []) ∧
    (∀ room_id rd, data ≠ [] → u.room = some room_id → mapGet s.rooms room_id = some rd →
      (∀ e ∈ out.2, e.2 = Push.relayRaw (relayPrefix sender ++ data.drop 1)) ∧
      (∀ pid : IdType,
        (pid, Push.relayRaw (relayPrefix sender ++ data.drop 1)) ∈ out.2 ↔
          pid ∈ rd.players ∧ pid ≠ sender ∧
            ∃ v, mapGet s.players pid = some v ∧ v.in_game = true)) := by
  simp only [handleSendRelayMex] at h
  split at h
  · rename_i hdata
    simp only [Option.some.injEq] at h
    subst h
    exact ⟨rfl, fun _ => rfl, fun _ => rfl, fun _ _ hne _ _ => absurd hdata hne⟩
  · rename_i hdata
    split at h
    · rename_i hnone
      exact absurd (hu.symm.trans hnone) (by simp)
    · rename_i player hplayer
      have hpu : player = u := Option.some_inj.mp (hplayer.symm.trans hu)
      subst hpu
      split at h
      · rename_i hnb
        simp only [Option.some.injEq] at h
        subst h
        refine ⟨rfl, fun _ => rfl, fun _ => rfl, ?_⟩
        intro room_id rd _ h1 h2
        rw [h1] at hnb
        simp only [Option.bind_eq_bind, Option.some_bind] at hnb
        exact absurd (hnb.symm.trans h2) (by simp)
      · rename_i room hbind
        simp only [Option.some.injEq] at h
        subst h
        refine ⟨rfl, fun hcon => absurd hcon hdata, ?_, ?_⟩
        · intro hcon
          rw [hcon] at hbind
          exact absurd hbind (by simp)
        · intro room_id rd _ h1 h2
          have hroom : room = rd := by
            rw [h1] at hbind
            simp only [Option.bind_eq_bind, Option.some_bind] at hbind
            exact Option.some_inj.mp (hbind.symm.trans h2)
          subst hroom
          exact ⟨relaySends_shape, fun pid => mem_relaySends⟩

/-- Sender 1 (in room 10) and in-game member 2, for the C4 witness. -/
def C4wState : ServerActorState :=
  { players := [(1, ⟨⟨1, "a", ⟨0, 0⟩, true⟩, some 10, false⟩),
                (2, ⟨⟨2, "b", ⟨0, 0⟩, false⟩, some 10, true⟩)],
    rooms := [(10, ⟨.Playing, [1, 2], 1, false⟩)],
    pub_rooms := [], pub_rooms_available := [] }

/-- Witness for C4: the rewritten payload of `\x7b"x":1\x7d` from player 1
reaches exactly the in-game room-mate 2. -/
theorem C4_sendrelay_witness :
    (2, Push.relayRaw (relayPrefix 1 ++ ('\x7b' :: "\"x\":1\x7d".toList).drop 1)) ∈
      (handleSendRelayMex C4wState 1 ('\x7b' :: "\"x\":1\x7d".toList)).elim
        ([] : Sends) (fun out => out.2) := by
  have happ := C4_sendrelay C4wState 1 ('\x7b' :: "\"x\":1\x7d".toList)
    ⟨⟨1, "a", ⟨0, 0⟩, true⟩, some 10, false⟩
    ((handleSendRelayMex C4wState 1 ('\x7b' :: "\"x\":1\x7d".toList)).getD (C4wState, []))
    rfl rfl
  obtain ⟨_, _, _, hmain⟩ := happ
  obtain ⟨_, hiff⟩ := hmain 10 ⟨.Playing, [1, 2], 1, false⟩ (by simp) rfl rfl
  exact (hiff 2).mpr ⟨by simp, by decide, ⟨⟨2, "b", ⟨0, 0⟩, false⟩, some 10, true⟩, rfl, rfl⟩

/-! ## Client session (`client_ws.rs`)

The session actor is embedded as a pure step function over `ClientWs` state.
Awaited coordinator replies (`.send(..).wait(ctx)`) are supplied by a
`CoordReplies` oracle; fire-and-forget `db.do_send` calls, socket writes and
`ctx.stop()` are recorded as an ordered `ClientAction` list. -/

/-- `ClientState` (`client_ws.rs`). -/
inductive ClientState
  | PreLogin
  | MatchMaking
  | Lobby
  | PrePlaying (req : Nat)
  | Playing
deriving DecidableEq

/-- `ClientWs` session state (heartbeat clock and actor address omitted:
no claim mentions them). -/
structure ClientWs where
  state : ClientState
  session_id : IdType
  next_send_id : Nat
  relay_queue : List (List Char)
deriving DecidableEq

/-- `ReceivedMessage` (`protocol.rs`): the inbound message surface. -/
inductive ReceivedMessage
  | login (details : LoginData)
  | changeAvatar (cosmetics : PlayerCosmetics)
  | roomFind
  | roomCreate
  | roomLeave
  | roomJoin (invite_id : IdType)
  | roomStart (connection_type : RoomConnectionType)
  | eventRoomStartAck (request_id : Nat)
deriving DecidableEq

/-- A request the session sends to the coordinator (`db.send` / `db.do_send`). -/
inductive CoordMsg
  | registerSession (id : Option IdType) (obj : LoginData)
  | createRoom (id : IdType)
  | joinRoom (id : IdType) (room_id : IdType)
  | leaveRoom (id : IdType)
  | startRoom (id : IdType) (conn_type : RoomConnectionType)
  | editCosmetics (id : IdType) (obj : PlayerCosmetics)
  | disconnect (id : IdType)
deriving DecidableEq

/-- `JoinRoomResult` as MATCHED by `client_ws.rs` (the session file is from
an older revision: it names a `NameConflict` variant that `server_actor.rs`
does not declare, and it has no arm at all for the server's `RoomIsFull`). -/
inductive ClientJoinRoomResult
  | Success (players : List PlayerObject)
  | RoomNotFound
  | NameConflict
  | AlreadyPlaying
deriving DecidableEq

/-- The typed data part of a `Response` frame. -/
inductive RespData
  | login (player_id : IdType)
  | roomCreate (players : List PlayerObject) (invite_id : IdType)
  | roomJoin (players : List PlayerObject)
  | noData
deriving DecidableEq

/-- A serialized outbound frame body: `Response { ptype, request_id, result,
data }`, `Error { origin_id, error, error_message }` or a pushed `OutEvent`. -/
inductive FramePayload
  | response (ptype : String) (request_id : Nat) (result : Option String) (data : RespData)
  | err (origin_id : Option Nat) (error : String) (error_message : Option String)
  | outEvent (e : OutEvent)
deriving DecidableEq

/-- An observable effect of one session step. -/
inductive ClientAction
  | send (id : Nat) (p : FramePayload)
  | rawText (data : List Char)
  | stop
  | toServer (m : CoordMsg)
deriving DecidableEq

/-- Awaited coordinator replies for the arms that block on `db.send`. -/
structure CoordReplies where
  registerReply : IdType
  createReply : IdType × PlayerObject
  joinReply : ClientJoinRoomResult

/-- `ClientWs::send_message`: allocate the next outbound id and emit the
frame; returns the updated state, the emitted action and the consumed id. -/
def send_message (c : ClientWs) (p : FramePayload) : ClientWs × ClientAction × Nat :=
  (⟨c.state, c.session_id, c.next_send_id + 1, c.relay_queue⟩,
    .send c.next_send_id p, c.next_send_id)

/-- `ClientWs::handle_message_login` (state `PreLogin`). -/
def handle_message_login (o : CoordReplies) (c : ClientWs) (id : Nat)
    (mex : ReceivedMessage) : ClientWs × List ClientAction :=
  match mex with
  | .login details =>
      let c₁ : ClientWs := { c with session_id := o.registerReply }
      let c₂ : ClientWs := { c₁ with state := .MatchMaking }
      let r := send_message c₂
        (.response "login_response" id (some "ok") (.login c₂.session_id))
      (r.1, [.toServer (.registerSession none details), r.2.1])
  | _ =>
      let r := send_message c (.err (some id) "Login Required" none)
      (r.1, [r.2.1])

/-- `ClientWs::handle_message_matchmaking` (state `MatchMaking`). Note: this
legacy revision has NO `RoomFind` arm (it falls into the catch-all) and no
`RoomIsFull` arm in the join-reply match. -/
def handle_message_matchmaking (o : CoordReplies) (c : ClientWs) (id : Nat)
    (mex : ReceivedMessage) : ClientWs × List ClientAction :=
  match mex with
  | .login details =>
      let r := send_message c
        (.response "login_response" id (some "ok") (.login c.session_id))
      (r.1, [.toServer (.registerSession (some c.session_id) details), r.2.1])
  | .roomCreate =>
      let r := send_message c
        (.response "room_create_response" id (some "ok")
          (.roomCreate [o.createReply.2] o.createReply.1))
      ({ r.1 with state := .Lobby }, [.toServer (.createRoom c.session_id), r.2.1])
  | .roomJoin invite_id =>
      let act := ClientAction.toServer (.joinRoom c.session_id invite_id)
      match o.joinReply with
      | .Success players =>
          let r := send_message c
            (.response "room_join_response" id (some "ok") (.roomJoin players))
          ({ r.1 with state := .Lobby }, [act, r.2.1])
      | .RoomNotFound =>
          let r := send_message c
            (.response "room_join_response" id (some "room_not_found") .noData)
          (r.1, [act, r.2.1])
      | .NameConflict =>
          let r := send_message c
            (.response "room_join_response" id (some "name_conflict") .noData)
          (r.1, [act, r.2.1])
      | .AlreadyPlaying =>
          let r := send_message c
            (.response "room_join_response" id (some "already_playing") .noData)
          (r.1, [act, r.2.1])
  | _ =>
      let r := send_message c (.err (some id) "Invalid message type" none)
      (r.1, [r.2.1])

/-- `ClientWs::handle_message_lobby` (states `Lobby` and `PrePlaying`): note
the unconditional `Error{origin, "Login Required"}` sent before the match on
the message. -/
def handle_message_lobby (c : ClientWs) (id : Nat) (mex : ReceivedMessage) :
    ClientWs × List ClientAction :=
  let r₀ := send_message c (.err (some id) "Login Required" none)
  let c₀ := r₀.1
  let a₀ := r₀.2.1
  match mex with
  | .changeAvatar cosmetics =>
      (c₀, [a₀, .toServer (.editCosmetics c₀.session_id cosmetics)])
  | .roomLeave =>
      let c₁ : ClientWs := { c₀ with state := .MatchMaking }
      let r₁ := send_message c₁ (.response "room_leave_response" id (some "ok") .noData)
      (r₁.1, [a₀, .toServer (.leaveRoom c₀.session_id), r₁.2.1])
  | .roomStart connection_type =>
      (c₀, [a₀, .toServer (.startRoom c₀.session_id connection_type)])
  | .eventRoomStartAck request_id =>
      match c₀.state with
      | .PrePlaying res_id =>
          if res_id = request_id then
            (⟨.Playing, c₀.session_id, c₀.next_send_id, []⟩,
              a₀ :: c₀.relay_queue.map (fun x => .rawText x))
          else
            let r₁ := send_message c₀ (.err (some id) "Invalid request_id" none)
            (r₁.1, [a₀, r₁.2.1])
      | _ =>
          let r₁ := send_message c₀
            (.err (some id) "Invalid state" (some "No message to acknowledge"))
          (r₁.1, [a₀, r₁.2.1])
  | _ =>
      let r₁ := send_message c₀ (.err (some id) "Invalid message type" none)
      (r₁.1, [a₀, r₁.2.1])

/-- `ClientWs::handle_message`: dispatch on the session state (`Lobby` and
`PrePlaying` share `handle_message_lobby`; `Playing` ignores parsed
messages — raw frames are forwarded upstream of this function). -/
def handle_message (o : CoordReplies) (c : ClientWs) (id : Nat)
    (mex : ReceivedMessage) : ClientWs × List ClientAction :=
  match c.state with
  | .PreLogin => handle_message_login o c id mex
  | .MatchMaking => handle_message_matchmaking o c id mex
  | .Lobby => handle_message_lobby c id mex
  | .PrePlaying _ => handle_message_lobby c id mex
  | .Playing => (c, [])

/-- `Handler<SendRelayMexRaw> for ClientWs`: queue while `PrePlaying` (close
the session when the queue is full), write through while `Playing`. -/
def handleRelayRaw (c : ClientWs) (data : List Char) : ClientWs × List ClientAction :=
  match c.state with
  | .PreLogin => (c, [])
  | .MatchMaking => (c, [])
  | .Lobby => (c, [])
  | .PrePlaying _ =>
      if c.relay_queue.length ≥ RELAY_QUEUE_MAX_SIZE then (c, [.stop])
      else ({ c with relay_queue := c.relay_queue ++ [data] }, [])
  | .Playing => (c, [.rawText data])

/-- `Handler<Event> for ClientWs`: serialize the pushed event; on
`EventRoomStart` record the outbound message id and enter `PrePlaying`. -/
def handleServerEvent (c : ClientWs) (e : OutEvent) : ClientWs × List ClientAction :=
  let r := send_message c (.outEvent e)
  match e with
  | .EventRoomStart _ _ => ({ r.1 with state := .PrePlaying r.2.2 }, [r.2.1])
  | _ => (r.1, [r.2.1])

/-! ## C5: message-in-state gating -/

/-- Modelled from the claim's accept lists (spec §4.2): which message types
each state is said to accept. -/
def specAccepted : ClientState → ReceivedMessage → Bool
  | .PreLogin, .login _ => true
  | .MatchMaking, .login _ => true
  | .MatchMaking, .roomCreate => true
  | .MatchMaking, .roomJoin _ => true
  | .MatchMaking, .roomFind => true
  | .Lobby, .changeAvatar _ => true
  | .Lobby, .roomLeave => true
  | .Lobby, .roomStart _ => true
  | .PrePlaying _, .eventRoomStartAck _ => true
  | _, _ => false

/-- The accept sets actually implemented by `handle_message` (the legacy
`client_ws.rs`): no `RoomFind` arm in `MatchMaking`, and `Lobby` and
`PrePlaying` share one handler accepting all four lobby messages. -/
def codeAccepts : ClientState → ReceivedMessage → Bool
  | .PreLogin, .login _ => true
  | .MatchMaking, .login _ => true
  | .MatchMaking, .roomCreate => true
  | .MatchMaking, .roomJoin _ => true
  | .Lobby, .changeAvatar _ => true
  | .Lobby, .roomLeave => true
  | .Lobby, .roomStart _ => true
  | .Lobby, .eventRoomStartAck _ => true
  | .PrePlaying _, .changeAvatar _ => true
  | .PrePlaying _, .roomLeave => true
  | .PrePlaying _, .roomStart _ => true
  | .PrePlaying _, .eventRoomStartAck _ => true
  | _, _ => false

/-- Does an action carry an `Error` frame with text "Invalid message type"? -/
def isInvalidMexTypeErr : ClientAction → Bool
  | .send _ (.err _ e _) => decide (e = "Invalid message type")
  | _ => false

theorem all_not_invalid {l : List ClientAction}
    (h : l.all (fun a => !isInvalidMexTypeErr a) = true) :
    ∀ a ∈ l, isInvalidMexTypeErr a = false := by
  intro a ha
  have := List.all_eq_true.1 h a ha
  simpa using this

def oracle0 : CoordReplies := ⟨0, (0, ⟨0, "o", ⟨0, 0⟩, false⟩), .RoomNotFound⟩

def clientPreLogin : ClientWs := ⟨.PreLogin, 0, 0, []⟩

/-- C5 counterexample: `RoomCreate` is not accepted in `PreLogin`, yet the
session's reply is a single `Error{5, "Login Required"}` frame — not the
`Error{5, "Invalid message type"}` frame the claim requires. -/
theorem C5_counterexample :
    specAccepted .PreLogin .roomCreate = false ∧
    (handle_message oracle0 clientPreLogin 5 .roomCreate).2 =
      [.send 0 (.err (some 5) "Login Required" none)] ∧
    ¬ (handle_message oracle0 clientPreLogin 5 .roomCreate).2 =
      [.send 0 (.err (some 5) "Invalid message type" none)] := by
  decide

/-- C5, amended: rejected messages leave the protocol state and relay queue
unchanged, and the reply is: a single `Error{origin, "Login Required"}` in
`PreLogin`; a single `Error{origin, "Invalid message type"}` in `MatchMaking`
(whose accept set is `Login`, `RoomCreate`, `RoomJoin` — `RoomFind` is NOT
accepted in this revision); and, in `Lobby`/`PrePlaying` (which share one
handler accepting `ChangeAvatar`, `RoomLeave`, `RoomStart`,
`EventRoomStartAck`), an unconditional `Error{origin, "Login Required"}`
frame followed by `Error{origin, "Invalid message type"}`. Accepted messages
never produce an "Invalid message type" frame. -/
theorem C5_gating_amended (o : CoordReplies) (c : ClientWs) (id : Nat)
    (mex : ReceivedMessage) :
    (c.state = .PreLogin → codeAccepts c.state mex = false →
      (handle_message o c id mex).2 =
        [.send c.next_send_id (.err (some id) "Login Required" none)] ∧
      (handle_message o c id mex).1.state = c.state ∧
      (handle_message o c id mex).1.relay_queue = c.relay_queue) ∧
    (c.state = .MatchMaking → codeAccepts c.state mex = false →
      (handle_message o c id mex).2 =
        [.send c.next_send_id (.err (some id) "Invalid message type" none)] ∧
      (handle_message o c id mex).1.state = c.state ∧
      (handle_message o c id mex).1.relay_queue = c.relay_queue) ∧
    ((c.state = .Lobby ∨ ∃ n, c.state = .PrePlaying n) →
      codeAccepts c.state mex = false →
      (handle_message o c id mex).2 =
        [.send c.next_send_id (.err (some id) "Login Required" none),
         .send (c.next_send_id + 1) (.err (some id) "Invalid message type" none)] ∧
      (handle_message o c id mex).1.state = c.state ∧
      (handle_message o c id mex).1.relay_queue = c.relay_queue) ∧
    (codeAccepts c.state mex = true →
      ∀ a ∈ (handle_message o c id mex).2, isInvalidMexTypeErr a = false) := by
  obtain ⟨st, sid, nsid, q⟩ := c
  refine ⟨?_, ?_, ?_, ?_⟩
  · intro hst hacc
    simp only at hst
    subst hst
    cases mex <;>
      simp_all [handle_message, handle_message_login, send_message, codeAccepts]
  · intro hst hacc
    simp only at hst
    subst hst
    cases mex <;>
      simp_all [handle_message, handle_message_matchmaking, send_message, codeAccepts]
  · intro hst hacc
    rcases hst with hst | ⟨n, hst⟩ <;>
      (simp only at hst; subst hst;
       cases mex <;>
         simp_all [handle_message, handle_message_lobby, send_message, codeAccepts])
  · intro hacc
    refine all_not_invalid ?_
    obtain ⟨reg, cr, jr⟩ := o
    cases st with
    | PreLogin =>
        cases mex <;> first | rfl | simp [codeAccepts] at hacc
    | MatchMaking =>
        cases mex <;>
          first
          | rfl
          | (cases jr <;> rfl)
          | simp [codeAccepts] at hacc
    | Lobby =>
        cases mex <;> first | rfl | simp [codeAccepts] at hacc
    | PrePlaying n =>
        cases mex with
        | login details => simp [codeAccepts] at hacc
        | changeAvatar cosmetics => rfl
        | roomFind => simp [codeAccepts] at hacc
        | roomCreate => simp [codeAccepts] at hacc
        | roomLeave => rfl
        | roomJoin invite_id => simp [codeAccepts] at hacc
        | roomStart ct => rfl
        | eventRoomStartAck m =>
            by_cases hnm : n = m
            · subst hnm
              simp [handle_message, handle_message_lobby, send_message, List.all_map,
                isInvalidMexTypeErr]
            · simp [handle_message, handle_message_lobby, send_message, hnm,
                isInvalidMexTypeErr]
    | Playing => simp [codeAccepts] at hacc

/-- Witness for the amended C5: `RoomFind` in `MatchMaking` is rejected with
a single "Invalid message type" error. -/
theorem C5_gating_amended_witness :
    (handle_message oracle0 ⟨.MatchMaking, 9, 4, []⟩ 7 .roomFind).2 =
      [.send 4 (.err (some 7) "Invalid message type" none)] ∧
    (handle_message oracle0 ⟨.MatchMaking, 9, 4, []⟩ 7 .roomFind).1.state = .MatchMaking :=
  ⟨((C5_gating_amended oracle0 ⟨.MatchMaking, 9, 4, []⟩ 7 .roomFind).2.1 rfl rfl).1,
   ((C5_gating_amended oracle0 ⟨.MatchMaking, 9, 4, []⟩ 7 .roomFind).2.1 rfl rfl).2.1⟩

/-! ## C8: the PrePlaying relay queue -/

/-- C8: while a session is in `PrePlaying(n)`, an incoming `SendRelayMexRaw`
is appended to the relay queue when it holds fewer than
`RELAY_QUEUE_MAX_SIZE = 64` entries, and the session is closed (`ctx.stop`)
instead when it already holds 64; on `EventRoomStartAck` with the matching
request id the state becomes `Playing` and the queued payloads are written to
the socket in FIFO order within the same step — hence before any subsequent
inbound message is processed (the write list is preceded only by the
unconditional "Login Required" error frame the lobby handler emits). -/
theorem C8_preplaying_queue (o : CoordReplies) (c : ClientWs) (n : Nat)
    (data : List Char) (id : Nat) (hst : c.state = .PrePlaying n) :
    (c.relay_queue.length < RELAY_QUEUE_MAX_SIZE →
      handleRelayRaw c data = ({ c with relay_queue := c.relay_queue ++ [data] }, [])) ∧
    (c.relay_queue.length = RELAY_QUEUE_MAX_SIZE →
      handleRelayRaw c data = (c, [.stop])) ∧
    ((handle_message o c id (.eventRoomStartAck n)).1.state = .Playing ∧
     (handle_message o c id (.eventRoomStartAck n)).1.relay_queue = [] ∧
     (handle_message o c id (.eventRoomStartAck n)).2 =
       .send c.next_send_id (.err (some id) "Login Required" none) ::
         c.relay_queue.map (fun x => .rawText x)) := by
  obtain ⟨st, sid, nsid, q⟩ := c
  simp only at hst
  subst hst
  refine ⟨?_, ?_, ?_⟩
  · intro hlen
    simp only [handleRelayRaw]
    rw [if_neg (Nat.not_le.mpr hlen)]
  · intro hlen
    simp only [handleRelayRaw]
    rw [if_pos (Nat.le_of_eq hlen.symm)]
  · simp [handle_message, handle_message_lobby, send_message]

/-- Witness for C8 at a queue of one payload and request id 3. -/
theorem C8_preplaying_queue_witness :
    handleRelayRaw ⟨.PrePlaying 3, 1, 0, [['a']]⟩ ['b'] =
      (⟨.PrePlaying 3, 1, 0, [['a'], ['b']]⟩, []) ∧
    (handle_message oracle0 ⟨.PrePlaying 3, 1, 0, [['a']]⟩ 2 (.eventRoomStartAck 3)).1.state =
      .Playing := by
  have happ := C8_preplaying_queue oracle0 ⟨.PrePlaying 3, 1, 0, [['a']]⟩ 3 ['b'] 2 rfl
  exact ⟨happ.1 (by decide), happ.2.2.1⟩

/-! ## C10: EventRoomStartAck with the wrong request id -/

/-- C10: in `PrePlaying(n)`, an `EventRoomStartAck{request_id = m}` with
`m ≠ n` is answered with an `Error{origin_id = id, "Invalid request_id"}`
frame (preceded by the lobby handler's unconditional "Login Required" frame),
the session stays in `PrePlaying(n)`, and the relay queue is untouched —
nothing is flushed (no raw socket writes appear) and nothing is dropped. -/
theorem C10_wrong_ack (o : CoordReplies) (c : ClientWs) (id n m : Nat)
    (hst : c.state = .PrePlaying n) (hnm : m ≠ n) :
    (handle_message o c id (.eventRoomStartAck m)).1.state = .PrePlaying n ∧
    (handle_message o c id (.eventRoomStartAck m)).1.relay_queue = c.relay_queue ∧
    (handle_message o c id (.eventRoomStartAck m)).2 =
      [.send c.next_send_id (.err (some id) "Login Required" none),
       .send (c.next_send_id + 1) (.err (some id) "Invalid request_id" none)] := by
  obtain ⟨st, sid, nsid, q⟩ := c
  simp only at hst
  subst hst
  simp [handle_message, handle_message_lobby, send_message, Ne.symm hnm]

/-- Witness for C10: acknowledging with id 4 while `PrePlaying 3`. -/
theorem C10_wrong_ack_witness :
    (handle_message oracle0 ⟨.PrePlaying 3, 1, 5, [['a']]⟩ 9 (.eventRoomStartAck 4)).1.state =
      .PrePlaying 3 ∧
    (handle_message oracle0 ⟨.PrePlaying 3, 1, 5, [['a']]⟩ 9 (.eventRoomStartAck 4)).2 =
      [.send 5 (.err (some 9) "Login Required" none),
       .send 6 (.err (some 9) "Invalid request_id" none)] := by
  have happ := C10_wrong_ack oracle0 ⟨.PrePlaying 3, 1, 5, [['a']]⟩ 9 3 4 rfl (by decide)
  exact ⟨happ.1, happ.2.2⟩

/-! ## C9: the RoomIsFull reply and the legacy session -/

/-- Does an action carry a typed response whose result is "room_is_full"? -/
def mentionsRoomIsFull : ClientAction → Bool
  | .send _ (.response _ _ (some r) _) => decide (r = "room_is_full")
  | _ => false

/-- Players 1–8 fill room 30; player 9 is registered with no room. -/
def C9fullState : ServerActorState :=
  { players := [(1, ⟨⟨1, "p1", ⟨0, 0⟩, true⟩, some 30, false⟩),
                (2, ⟨⟨2, "p2", ⟨0, 0⟩, false⟩, some 30, false⟩),
                (3, ⟨⟨3, "p3", ⟨0, 0⟩, false⟩, some 30, false⟩),
                (4, ⟨⟨4, "p4", ⟨0, 0⟩, false⟩, some 30, false⟩),
                (5, ⟨⟨5, "p5", ⟨0, 0⟩, false⟩, some 30, false⟩),
                (6, ⟨⟨6, "p6", ⟨0, 0⟩, false⟩, some 30, false⟩),
                (7, ⟨⟨7, "p7", ⟨0, 0⟩, false⟩, some 30, false⟩),
                (8, ⟨⟨8, "p8", ⟨0, 0⟩, false⟩, some 30, false⟩),
                (9, ⟨⟨9, "p9", ⟨0, 0⟩, false⟩, none, false⟩)],
    rooms := [(30, ⟨.Matchmaking, [1, 2, 3, 4, 5, 6, 7, 8], 0, false⟩)],
    pub_rooms := [], pub_rooms_available := [] }

/-- C9: the coordinator (`server_actor.rs`) replies `RoomIsFull` to a
`JoinRoom` aimed at a full room, but the session reply code in the shipped
`client_ws.rs` — whose join-reply match has arms only for `Success`,
`RoomNotFound`, `NameConflict` and `AlreadyPlaying` — can never emit a
`room_join_response` whose result is "room_is_full", whichever reply it
receives. -/
theorem C9_room_is_full_code_bug :
    handleJoinRoom C9fullState 9 30 = some (C9fullState, .RoomIsFull, []) ∧
    (∀ o : CoordReplies, ∀ c : ClientWs, ∀ id : Nat, ∀ invite : IdType,
      ((handle_message_matchmaking o c id (.roomJoin invite)).2.all
        (fun a => !(mentionsRoomIsFull a))) = true) := by
  constructor
  · decide
  · intro o c id invite
    obtain ⟨reg, cr, jr⟩ := o
    cases jr <;> rfl

end Carc
